import Mathlib

/-!
Verification development for the mfsjs repository: a shallow embedding of the
MFS volume engine (`mfs.js`) and the MacPaint codec (`macpaint.js`), together
with theorems about the embedded operations.

Conventions of the embedding:
* JavaScript byte buffers (`Uint8Array`, `ArrayBuffer` viewed through a
  `DataView`) are modelled as `List Nat` of byte values, or as a `Buffer`
  structure (size plus contents function) where random access matters.
* JavaScript numbers are modelled as `Nat` where the source only ever holds
  non-negative integers, and as `Int` where a subtraction can go negative.
* A JavaScript method that can `throw` is modelled in `Except String`;
  methods that mutate `this` additionally thread the volume state.
* A JavaScript `while` loop whose progress measure is not structural is
  modelled by structural recursion on an explicit `fuel : Nat` argument; at
  each such definition the wrapper passes a fuel value that the loop can be
  proved never to exhaust (each iteration strictly decreases the measure that
  the fuel over-approximates), so the fuel-exhausted branch is unreachable.
-/

set_option linter.unusedSectionVars false

deriving instance DecidableEq for Except

namespace MacPaintLib

/-! ## PackBits codec (macpaint.js, class PackBits)

`decompressScanline` reads packets from the input until exactly 72 output
bytes are produced; `compressScanline` is the greedy run-length encoder.
The JS `Uint8Array` stores the pushed control byte `-(runLength-1)` as its
two's complement `256 - (runLength - 1)`; `getInt8` reads a byte `b ≥ 128`
as `b - 256`.  Both conversions appear explicitly below. -/

/-- Result record of `PackBits.decompressScanline`: the (always 72-byte,
zero-padded) output buffer, the number of input bytes consumed, and the
optional error string, exactly as the source returns them. -/
structure PBResult where
  data : List Nat
  bytesRead : Nat
  error : Option String
  deriving Repr, DecidableEq

/-- Core loop of `PackBits.decompressScanline`.  `inp` is the not yet consumed
input, `acc` the output bytes written so far (the JS `output[0..outputIndex)`).
Returns the final written output, the bytes consumed by this loop, and the
error, if any.  Each iteration consumes at least the header byte, so fuel
`inp.length + 1` (as passed by `decompressScanline`) is never exhausted. -/
def decompGo (fuel : Nat) (inp : List Nat) (acc : List Nat) :
    List Nat × Nat × Option String :=
  match fuel with
  | 0 => (acc, 0, some "unreachable: decompression fuel exhausted")
  | fuel + 1 =>
    if 72 ≤ acc.length then (acc, 0, none)
    else
      match inp with
      | [] => (acc, 0, some "Unexpected end of input during decompression.")
      | b :: rest =>
        if b < 128 then
          -- headerByte ≥ 0: literal run of (headerByte + 1) bytes
          let count := b + 1
          if 72 < acc.length + count then
            (acc, 1, some "Literal run exceeds scanline boundary.")
          else if rest.length < count then
            (acc, 1, some "Literal run reads past input buffer.")
          else
            let r := decompGo fuel (rest.drop count) (acc ++ rest.take count)
            (r.1, 1 + count + r.2.1, r.2.2)
        else if 129 ≤ b then
          -- headerByte in [-127, -1]: repeat run of (1 - headerByte) = 257 - b bytes
          let count := 257 - b
          if 72 < acc.length + count then
            (acc, 1, some "Repeat run exceeds scanline boundary.")
          else
            match rest with
            | [] => (acc, 1, some "Repeat run reads past input buffer for byte to repeat.")
            | rb :: rest2 =>
              let r := decompGo fuel rest2 (acc ++ List.replicate count rb)
              (r.1, 2 + r.2.1, r.2.2)
        else
          -- headerByte = -128: no-op, skip
          let r := decompGo fuel rest acc
          (r.1, 1 + r.2.1, r.2.2)

/-- `PackBits.decompressScanline(inputView, initialOffset)`: run the packet
loop on the input from `initialOffset` on; the output array was preallocated
to 72 zero bytes, so unwritten positions read back as `0`.  The final
`outputIndex !== 72` check of the source is kept verbatim. -/
def decompressScanline (input : List Nat) (initialOffset : Nat) : PBResult :=
  let inp := input.drop initialOffset
  let r := decompGo (inp.length + 1) inp []
  match r.2.2 with
  | some e => { data := r.1 ++ List.replicate (72 - r.1.length) 0
                bytesRead := r.2.1, error := some e }
  | none =>
      if r.1.length ≠ 72 then
        { data := r.1 ++ List.replicate (72 - r.1.length) 0
          bytesRead := r.2.1
          error := some "Scanline decompression did not yield 72 bytes" }
      else
        { data := r.1, bytesRead := r.2.1, error := none }

/-- Inner `while` of the repeat-run scan in `PackBits.compressScanline`:
starting from candidate run length `r`, extend while `i + r < n`,
`s[i] == s[i + r]` and `r < 128`.  The counter `r` can rise to at most 128,
so fuel 128 (passed by `compressGo` together with `r = 1`) always suffices. -/
def repeatLenGo (s : List Nat) (i : Nat) : Nat → Nat → Nat
  | 0, r => r
  | fuel + 1, r =>
    if i + r < s.length ∧ s.getD i 0 = s.getD (i + r) 0 ∧ r < 128 then
      repeatLenGo s i fuel (r + 1)
    else r

/-- Inner `while` of the literal-run scan in `PackBits.compressScanline`:
advance `i` while no two-byte repeat starts at `i` and the literal stays
under the cap (`i - literalStart >= 127` breaks).  The index `i` only
advances while `i < s.length`, so fuel `s.length + 1` always suffices. -/
def litEndGo (s : List Nat) (start : Nat) : Nat → Nat → Nat
  | 0, i => i
  | fuel + 1, i =>
    if i < s.length then
      if i + 1 < s.length ∧ s.getD i 0 = s.getD (i + 1) 0 then i
      else if 127 ≤ i - start then i
      else litEndGo s start fuel (i + 1)
    else i

/-- Main greedy loop of `PackBits.compressScanline`, from input position `i`.
A repeat run of length `r ≥ 2` is emitted as the two bytes
`[256 - (r - 1), s[i]]` (the `Uint8Array` wrap of `-(r-1)`); otherwise a
literal run `[litLen - 1, bytes…]` is emitted.  All pushed data bytes are
wrapped modulo 256 as `new Uint8Array(compressed)` does.  Each iteration
advances `i` by at least one, so fuel `s.length + 1` always suffices. -/
def compressGo (s : List Nat) : Nat → Nat → List Nat
  | 0, _ => []
  | fuel + 1, i =>
    if i < s.length then
      let r := repeatLenGo s i 128 1
      if 1 < r then
        (256 - (r - 1)) :: (s.getD i 0 % 256) :: compressGo s fuel (i + r)
      else
        let e := litEndGo s i (s.length + 1) (i + 1)
        let litLen := e - i
        (litLen - 1) :: (((s.drop i).take litLen).map (· % 256) ++ compressGo s fuel e)
    else []

/-- `PackBits.compressScanline`: requires a 72-byte input, then runs the
greedy loop from position 0. -/
def compressScanline (s : List Nat) : Except String (List Nat) :=
  if s.length ≠ 72 then
    .error "Scanline data must be 72 bytes long for PackBits compression."
  else
    .ok (compressGo s (s.length + 1) 0)

/-! ### Properties of the repeat-run and literal-run scans -/

theorem repeatLenGo_spec (s : List Nat) (i : Nat) :
    ∀ fuel r, 129 ≤ fuel + r → r ≤ 128 →
      r ≤ repeatLenGo s i fuel r ∧ repeatLenGo s i fuel r ≤ 128 ∧
      (∀ k, r ≤ k → k < repeatLenGo s i fuel r →
        i + k < s.length ∧ s.getD (i + k) 0 = s.getD i 0 ∧ k < 128) := by
  intro fuel
  induction fuel with
  | zero => intro r h1 h2; omega
  | succ fuel ih =>
    intro r h1 h2
    rw [repeatLenGo]
    split
    · rename_i hcond
      obtain ⟨hlt, heq, hr128⟩ := hcond
      have h := ih (r + 1) (by omega) (by omega)
      refine ⟨by omega, h.2.1, ?_⟩
      intro k hk1 hk2
      rcases Nat.eq_or_lt_of_le hk1 with hk | hk
      · subst hk
        exact ⟨by omega, heq.symm, by omega⟩
      · exact h.2.2 k (by omega) hk2
    · exact ⟨le_rfl, h2, fun k hk1 hk2 => by omega⟩

theorem repeatLenGo_ge_two (s : List Nat) (i : Nat)
    (h1 : i + 1 < s.length) (h2 : s.getD i 0 = s.getD (i + 1) 0) :
    2 ≤ repeatLenGo s i 128 1 := by
  rw [repeatLenGo]
  split
  · exact (repeatLenGo_spec s i 127 2 (by omega) (by omega)).1
  · rename_i hcond
    exact absurd ⟨h1, h2, by omega⟩ hcond

theorem litEndGo_spec (s : List Nat) (start : Nat) :
    ∀ fuel i, s.length ≤ fuel + i → i ≤ s.length → i - start ≤ 127 →
      i ≤ litEndGo s start fuel i ∧ litEndGo s start fuel i ≤ s.length ∧
      litEndGo s start fuel i - start ≤ 127 ∧
      (s.length ≤ litEndGo s start fuel i ∨
       (litEndGo s start fuel i + 1 < s.length ∧
        s.getD (litEndGo s start fuel i) 0 = s.getD (litEndGo s start fuel i + 1) 0) ∨
       127 ≤ litEndGo s start fuel i - start) := by
  intro fuel
  induction fuel with
  | zero =>
    intro i h1 h2 h3
    rw [litEndGo]
    exact ⟨le_rfl, h2, h3, Or.inl (by omega)⟩
  | succ fuel ih =>
    intro i h1 h2 h3
    rw [litEndGo]
    split
    · split
      · rename_i hpair
        exact ⟨le_rfl, h2, h3, Or.inr (Or.inl hpair)⟩
      · split
        · rename_i hcap
          exact ⟨le_rfl, h2, h3, Or.inr (Or.inr hcap)⟩
        · rename_i hlt _ hcap
          have h := ih (i + 1) (by omega) (by omega) (by omega)
          exact ⟨by omega, h.2.1, h.2.2.1, h.2.2.2⟩
    · rename_i hge
      exact ⟨le_rfl, h2, h3, Or.inl (by omega)⟩

/-- The two blocks of a `compressGo` step stay inside the input: whenever the
repeat branch is taken its run fits, and the encoder steps forward. -/
theorem repeatLenGo_fits (s : List Nat) (i : Nat)
    (h : 1 < repeatLenGo s i 128 1) :
    i + repeatLenGo s i 128 1 ≤ s.length ∧ repeatLenGo s i 128 1 ≤ 128 ∧
    (∀ k, k < repeatLenGo s i 128 1 → s.getD (i + k) 0 = s.getD i 0) := by
  have hs := repeatLenGo_spec s i 128 1 (by omega) (by omega)
  refine ⟨?_, hs.2.1, ?_⟩
  · have := hs.2.2 (repeatLenGo s i 128 1 - 1) (by omega) (by omega)
    omega
  · intro k hk
    cases k with
    | zero => simp
    | succ k => exact (hs.2.2 (k + 1) (by omega) hk).2.1

/-! ### Length bound for the greedy encoder

The accounting: a repeat packet never expands, a literal packet of length
`k` expands by one byte, and a literal packet that is not final is always
followed by a repeat packet of at least two input bytes.  This yields
`|compressGo s fuel i| ≤ (n - i) + (n - i + 2) / 3`; at `n = 72` the bound is
`96`, and `expandingScanline` below attains it. -/

theorem compressGo_length (s : List Nat) :
    ∀ fuel i, (compressGo s fuel i).length ≤
      (s.length - i) + (s.length - i + 2) / 3 := by
  intro fuel
  induction fuel using Nat.strong_induction_on with
  | _ fuel ih =>
    intro i
    match fuel with
    | 0 => simp [compressGo]
    | fuel + 1 =>
      rw [compressGo]
      by_cases hi : i < s.length
      · simp only [hi, if_true]
        by_cases hr : 1 < repeatLenGo s i 128 1
        · -- repeat packet
          simp only [hr, if_true]
          have hfit := repeatLenGo_fits s i hr
          have hrec := ih fuel (by omega) (i + repeatLenGo s i 128 1)
          simp only [List.length_cons]
          omega
        · -- literal packet
          simp only [hr, if_false]
          have hspec := litEndGo_spec s i (s.length + 1) (i + 1)
            (by omega) (by omega) (by omega)
          set e := litEndGo s i (s.length + 1) (i + 1) with he
          simp only [List.length_cons, List.length_append, List.length_map,
            List.length_take, List.length_drop]
          rcases hspec.2.2.2 with hend | hpair | hcap
          · -- the literal ran to the end of the input
            have he2 : e = s.length := by omega
            have : (compressGo s fuel e).length = 0 := by
              match fuel with
              | 0 => simp [compressGo]
              | fuel + 1 => rw [compressGo]; simp [he2]
            omega
          · -- the literal stopped because a two-byte repeat starts at e
            match fuel with
            | 0 => simp [compressGo]; omega
            | fuel + 1 =>
              rw [compressGo]
              have hlt : e < s.length := by omega
              have hr2 : 1 < repeatLenGo s e 128 1 := by
                have := repeatLenGo_ge_two s e hpair.1 hpair.2
                omega
              simp only [hlt, if_true, hr2, if_true, List.length_cons]
              have hfit := repeatLenGo_fits s e hr2
              have hrec := ih fuel (by omega) (e + repeatLenGo s e 128 1)
              omega
          · -- the literal hit the 127-byte cap
            have hrec := ih fuel (by omega) e
            omega
      · simp [hi]

/-! ### Roundtrip: decompressing the compressor output restores the input -/

theorem take_drop_eq_replicate (s : List Nat) (i r : Nat)
    (hr : 0 < r) (hle : i + r ≤ s.length)
    (heq : ∀ k, k < r → s.getD (i + k) 0 = s.getD i 0) :
    (s.drop i).take r = List.replicate r (s.getD i 0) := by
  apply List.ext_getElem
  · simp; omega
  · intro k h1 h2
    have hk : k < r := by simpa using h2
    have hik : i + k < s.length := by omega
    have h := heq k hk
    rw [List.getD_eq_getElem s 0 hik, List.getD_eq_getElem s 0 (by omega : i < s.length)] at h
    simp only [List.getElem_take, List.getElem_drop, List.getElem_replicate]
    rw [List.getD_eq_getElem s 0 (by omega : i < s.length)]
    convert h using 2

theorem take_drop_append (s : List Nat) (i r : Nat) :
    (s.drop i).take r ++ s.drop (i + r) = s.drop i := by
  have h := List.take_append_drop r (s.drop i)
  rw [List.drop_drop] at h
  exact h

theorem triple_snd_ext {α β γ : Type} (a : α) (b b2 : β) (c : γ) (h : b = b2) :
    (a, b, c) = (a, b2, c) := by rw [h]

theorem map_mod_id (l : List Nat) (h : ∀ b ∈ l, b < 256) :
    l.map (· % 256) = l := by
  induction l with
  | nil => rfl
  | cons a l ih =>
    simp only [List.map_cons, List.cons.injEq]
    constructor
    · exact Nat.mod_eq_of_lt (h a (by simp))
    · exact ih (fun b hb => h b (by simp [hb]))

theorem decompGo_compressGo (s : List Nat) (hs : s.length = 72)
    (hb : ∀ b ∈ s, b < 256) :
    ∀ fuel i acc dfuel, acc.length = i → i ≤ 72 → s.length ≤ fuel + i →
      (compressGo s fuel i).length < dfuel →
      decompGo dfuel (compressGo s fuel i) acc =
        (acc ++ s.drop i, (compressGo s fuel i).length, none) := by
  intro fuel
  induction fuel using Nat.strong_induction_on with
  | _ fuel ih =>
    intro i acc dfuel hacc hi72 hfuel hdfuel
    rcases Nat.eq_or_lt_of_le hi72 with hieq | hilt
    · -- i = 72: the encoder is finished, the decoder sees a full output
      have hstop : compressGo s fuel i = [] := by
        match fuel with
        | 0 => rfl
        | fuel + 1 => rw [compressGo]; simp [hs, hieq]
      rw [hstop]
      match dfuel with
      | dfuel + 1 =>
        rw [decompGo]
        simp [hacc, ← hieq, hs, List.drop_length]
    · -- i < 72: one more packet
      match fuel with
      | 0 => omega
      | fuel + 1 =>
        have hilen : i < s.length := by omega
        rw [compressGo] at hdfuel ⊢
        simp only [hilen, if_true] at hdfuel ⊢
        by_cases hr : 1 < repeatLenGo s i 128 1
        · -- repeat packet
          simp only [hr, if_true] at hdfuel ⊢
          set r := repeatLenGo s i 128 1 with hrdef
          have hfit := repeatLenGo_fits s i hr
          have hd : s.getD i 0 < 256 := by
            apply hb
            rw [List.getD_eq_getElem s 0 hilen]
            exact List.getElem_mem hilen
          match dfuel with
          | dfuel + 1 =>
            rw [decompGo]
            have h1 : ¬ 72 ≤ acc.length := by omega
            simp only [h1, if_false]
            have hc1 : ¬ (256 - (r - 1)) < 128 := by omega
            have hc2 : 129 ≤ 256 - (r - 1) := by omega
            simp only [hc1, if_false, hc2, if_true]
            have hcount : 257 - (256 - (r - 1)) = r := by omega
            rw [hcount]
            have h2 : ¬ 72 < acc.length + r := by omega
            simp only [h2, if_false]
            have hmod : s.getD i 0 % 256 = s.getD i 0 := Nat.mod_eq_of_lt hd
            rw [hmod]
            have hrepl : List.replicate r (s.getD i 0) = (s.drop i).take r :=
              (take_drop_eq_replicate s i r (by omega) (by omega)
                (fun k hk => hfit.2.2 k hk)).symm
            have hrec := ih fuel (by omega) (i + r) (acc ++ List.replicate r (s.getD i 0))
              dfuel (by simp [hacc, List.length_replicate]) (by omega) (by omega)
              (by simp only [List.length_cons] at hdfuel; omega)
            rw [hrec]
            have hfirst : acc ++ List.replicate r (s.getD i 0) ++ s.drop (i + r)
                = acc ++ s.drop i := by
              rw [List.append_assoc, hrepl, take_drop_append]
            rw [hfirst]
            exact triple_snd_ext _ _ _ _ (by simp only [List.length_cons]; omega)
        · -- literal packet
          simp only [hr, if_false] at hdfuel ⊢
          have hspec := litEndGo_spec s i (s.length + 1) (i + 1)
            (by omega) (by omega) (by omega)
          set e := litEndGo s i (s.length + 1) (i + 1) with hedef
          set litLen := e - i with hlldef
          have hll1 : 1 ≤ litLen := by omega
          have hll127 : litLen ≤ 127 := by omega
          have hlit : ((s.drop i).take litLen).map (· % 256) = (s.drop i).take litLen := by
            apply map_mod_id
            intro b hbmem
            exact hb b (List.mem_of_mem_drop (List.mem_of_mem_take hbmem))
          rw [hlit] at hdfuel ⊢
          have hlitlen : ((s.drop i).take litLen).length = litLen := by
            simp [List.length_take, List.length_drop]; omega
          match dfuel with
          | dfuel + 1 =>
            rw [decompGo]
            have h1 : ¬ 72 ≤ acc.length := by omega
            simp only [h1, if_false]
            have hc1 : litLen - 1 < 128 := by omega
            simp only [hc1, if_true]
            have hcount : litLen - 1 + 1 = litLen := by omega
            rw [hcount]
            have h2 : ¬ 72 < acc.length + litLen := by omega
            simp only [h2, if_false]
            have h3 : ¬ ((s.drop i).take litLen ++ compressGo s fuel e).length < litLen := by
              simp [hlitlen]
            simp only [h3, if_false]
            have htake : ((s.drop i).take litLen ++ compressGo s fuel e).take litLen
                = (s.drop i).take litLen := by
              have h0 := List.take_left ((s.drop i).take litLen) (compressGo s fuel e)
              rwa [hlitlen] at h0
            have hdrop : ((s.drop i).take litLen ++ compressGo s fuel e).drop litLen
                = compressGo s fuel e := by
              have h0 := List.drop_left ((s.drop i).take litLen) (compressGo s fuel e)
              rwa [hlitlen] at h0
            rw [htake, hdrop]
            have hrec := ih fuel (by omega) e (acc ++ (s.drop i).take litLen)
              dfuel (by simp [hacc, hlitlen]; omega) (by omega) (by omega)
              (by simp only [List.length_cons, List.length_append, hlitlen] at hdfuel; omega)
            rw [hrec]
            have hfirst : acc ++ (s.drop i).take litLen ++ s.drop e = acc ++ s.drop i := by
              rw [List.append_assoc]
              congr 1
              rw [show e = i + litLen by omega]
              exact take_drop_append s i litLen
            rw [hfirst]
            exact triple_snd_ext _ _ _ _
              (by simp only [List.length_cons, List.length_append, hlitlen]; omega)

/-! ### Totality facts about the decompressor -/

theorem decompGo_consumed_le :
    ∀ fuel inp acc, (decompGo fuel inp acc).2.1 ≤ inp.length := by
  intro fuel
  induction fuel with
  | zero => intro inp acc; simp [decompGo]
  | succ fuel ih =>
    intro inp acc
    match inp with
    | [] =>
      rw [decompGo]
      split <;> simp
    | b :: rest =>
      rw [decompGo]
      dsimp only
      split
      · simp
      · split
        · split
          · simp
          · split
            · simp
            · rename_i hcnt
              have h := ih (rest.drop (b + 1)) (acc ++ rest.take (b + 1))
              simp only [List.length_drop] at h
              simp only [List.length_cons]
              omega
        · split
          · split
            · simp
            · split
              · simp
              · rename_i rb rest2
                have h := ih rest2 (acc ++ List.replicate (257 - b) rb)
                simp only [List.length_cons]
                omega
          · have h := ih rest acc
            simp only [List.length_cons]
            omega

theorem decompGo_none_len :
    ∀ fuel inp acc, acc.length ≤ 72 →
      ((decompGo fuel inp acc).2.2 = none → (decompGo fuel inp acc).1.length = 72) := by
  intro fuel
  induction fuel with
  | zero => intro inp acc h1 h2; simp [decompGo] at h2
  | succ fuel ih =>
    intro inp acc h1
    match inp with
    | [] =>
      rw [decompGo]
      split
      · rename_i h72; intro _; simp; omega
      · intro h2; simp at h2
    | b :: rest =>
      rw [decompGo]
      dsimp only
      split
      · rename_i h72; intro _; simp; omega
      · rename_i h72
        split
        · split
          · intro h2; simp at h2
          · split
            · intro h2; simp at h2
            · rename_i hlit hread
              have h := ih (rest.drop (b + 1)) (acc ++ rest.take (b + 1))
                (by simp only [List.length_append, List.length_take]; omega)
              simpa using h
        · split
          · split
            · intro h2; simp at h2
            · split
              · intro h2; simp at h2
              · rename_i rb rest2
                have h := ih rest2 (acc ++ List.replicate (257 - b) rb)
                  (by simp only [List.length_append, List.length_replicate]; omega)
                simpa using h
          · have h := ih rest acc h1
            simpa using h

/-! ### Claim theorems for the PackBits codec -/

/-- Worst case for the greedy encoder: 24 groups, each one unique byte
followed by a two-byte repeat, so each 3-byte group costs 4 output bytes. -/
def expandingScanline : List Nat := (List.range 24).flatMap fun g => [g, 255, 255]

/-- C5 counterexample: on the 72-byte input `expandingScanline` the greedy
PackBits compressor emits 96 bytes, exceeding the claimed 73-byte bound. -/
theorem compressScanline_exceeds_73 :
    expandingScanline.length = 72 ∧
    (compressScanline expandingScanline).map List.length = Except.ok 96 := by
  decide

/-- C5 (amended): for every 72-byte scanline input, the PackBits compressor
succeeds and produces output of at most 96 bytes (the true worst case, which
`expandingScanline` attains). -/
theorem compressScanline_length_le_96 (s : List Nat) (h : s.length = 72) :
    ∃ out, compressScanline s = .ok out ∧ out.length ≤ 96 := by
  refine ⟨compressGo s (s.length + 1) 0, ?_, ?_⟩
  · rw [compressScanline]
    simp [h]
  · have hb := compressGo_length s (s.length + 1) 0
    rw [h] at hb ⊢
    omega

/-- Witness for `compressScanline_length_le_96` at the all-zero scanline. -/
theorem compressScanline_length_le_96_witness :
    ∃ out, compressScanline (List.replicate 72 0) = .ok out ∧ out.length ≤ 96 :=
  compressScanline_length_le_96 (List.replicate 72 0) (by decide)

/-- C6: for every 72-byte input of byte values, compressing and then
decompressing reproduces the input exactly, with no error reported and all
compressed bytes consumed. -/
theorem decompress_compress_roundtrip (s : List Nat) (hlen : s.length = 72)
    (hbytes : ∀ b ∈ s, b < 256) :
    ∃ out, compressScanline s = .ok out ∧
      decompressScanline out 0 = { data := s, bytesRead := out.length, error := none } := by
  refine ⟨compressGo s (s.length + 1) 0, ?_, ?_⟩
  · rw [compressScanline]; simp [hlen]
  · have h := decompGo_compressGo s hlen hbytes (s.length + 1) 0 []
      ((compressGo s (s.length + 1) 0).length + 1) rfl (by omega) (by omega) (by omega)
    rw [decompressScanline]
    simp only [List.drop_zero] at h ⊢
    rw [h]
    simp [hlen]

/-- Witness for `decompress_compress_roundtrip` at the all-zero scanline. -/
theorem decompress_compress_roundtrip_witness :
    ∃ out, compressScanline (List.replicate 72 0) = .ok out ∧
      decompressScanline out 0 =
        { data := List.replicate 72 0, bytesRead := out.length, error := none } :=
  decompress_compress_roundtrip (List.replicate 72 0) (by decide) (by decide)

/-- C10: for every input buffer and starting offset, the (total, hence
terminating) scanline decompressor either reports an error or returns a
result whose output is exactly 72 bytes with a consumed count bounded by the
remaining input length. -/
theorem decompressScanline_total (input : List Nat) (initialOffset : Nat) :
    (decompressScanline input initialOffset).error.isSome = true ∨
    ((decompressScanline input initialOffset).data.length = 72 ∧
     (decompressScanline input initialOffset).bytesRead ≤
       input.length - initialOffset) := by
  rw [decompressScanline]
  have hcons := decompGo_consumed_le ((input.drop initialOffset).length + 1)
    (input.drop initialOffset) []
  simp only [List.length_drop] at hcons
  split
  · simp
  · rename_i heq
    split
    · simp
    · rename_i hlen
      right
      constructor
      · simpa using hlen
      · simpa using hcons

/-! ## Dithering strategies (macpaint.js)

The source passes a grayscale buffer object to each strategy's `apply`.
JavaScript arrays are mutable through references, so the embedding returns,
alongside the packed one-bit output, the contents of the caller's input
array *after* the call (`callerBuffer`).  Writes performed by the
error-diffusion strategies target the working copy created by
`new Float32Array(gsDataInput)` (field `work` below), never the caller's
array, and Threshold/Bayer only read, so in every strategy the returned
`callerBuffer` is the unchanged input.  Grayscale and error values are
modelled in `ℚ` (the claims under study do not depend on `Float32`
rounding). -/

/-- Grayscale image data object: pixel values plus dimensions. -/
structure GrayscaleData where
  data : List ℚ
  width : Nat
  height : Nat

/-- One-bit (packed, MSB-left) image data object. -/
structure OneBitData where
  data : List Nat
  width : Nat
  height : Nat

/-- Result of a dithering strategy: the packed output and the contents of the
caller's grayscale buffer after `apply` returns. -/
structure DitherOutcome where
  result : OneBitData
  callerBuffer : List ℚ

/-- Accumulator for the MSB-first bit packer the strategies share: the output
byte array, the next write index, the byte being assembled, and the bit
position inside it. -/
structure BitAcc where
  oneBit : List Nat
  idx : Nat
  currentByte : Nat
  bitPos : Nat

/-- One step of the bit packer: or the bit into `currentByte` at position
`7 - bitPos`; after eight bits, store the byte at `idx` and advance. -/
def pushBit (st : BitAcc) (bit : Nat) : BitAcc :=
  let cb := if bit = 1 then st.currentByte ||| (1 <<< (7 - st.bitPos)) else st.currentByte
  if st.bitPos + 1 = 8 then
    { oneBit := st.oneBit.set st.idx cb, idx := st.idx + 1, currentByte := 0, bitPos := 0 }
  else
    { st with currentByte := cb, bitPos := st.bitPos + 1 }

/-- Flush of the partly assembled byte after the pixel loop
(`if (bitPosition > 0) oneBitDataArray[oneBitDataIndex++] = currentByte`). -/
def flushBit (st : BitAcc) : BitAcc :=
  if 0 < st.bitPos then
    { oneBit := st.oneBit.set st.idx st.currentByte, idx := st.idx + 1
      currentByte := 0, bitPos := st.bitPos }
  else st

/-- The JS `gsData[i] += v` on the working buffer. -/
def addAt (l : List ℚ) (idx : Nat) (v : ℚ) : List ℚ :=
  l.set idx (l.getD idx 0 + v)

/-- `ThresholdStrategy.apply`: pixels strictly below the threshold become
black (bit 1).  This strategy only reads the caller's buffer.  The source
writes finished bytes at `floor(i / 8)`, which coincides with the packer's
sequential index. -/
def thresholdApply (thresholdValue : ℚ) (g : GrayscaleData) : DitherOutcome :=
  let total := (g.width * g.height + 7) / 8
  let st0 : BitAcc := { oneBit := List.replicate total 0, idx := 0, currentByte := 0, bitPos := 0 }
  let st := (List.range g.data.length).foldl
    (fun st i =>
      let isBlack := g.data.getD i 0 < thresholdValue
      pushBit st (if isBlack then 1 else 0)) st0
  let st := flushBit st
  { result := { data := st.oneBit, width := g.width, height := g.height }
    callerBuffer := g.data }

/-- State of an error-diffusion strategy: the cloned working grayscale buffer
(the JS `new Float32Array(gsDataInput)`) plus the bit packer. -/
structure DiffState where
  work : List ℚ
  acc : BitAcc

/-- One pixel step of `AtkinsonDitheringStrategy.apply`: clamp, quantise,
pack the bit, and spread `quantError / 8` to the six Atkinson neighbours of
the *working* buffer. -/
def atkinsonStep (width height : Nat) (st : DiffState) (y x : Nat) : DiffState :=
  let currentIndex := y * width + x
  let oldPixel := max 0 (min 255 (st.work.getD currentIndex 0))
  let newPixelValue : ℚ := if oldPixel < 128 then 0 else 255
  let pntgBit : Nat := if oldPixel < 128 then 1 else 0
  let acc := pushBit st.acc pntgBit
  let quantError := oldPixel - newPixelValue
  let errorPortion := quantError / 8
  let w := st.work
  let w := if x + 1 < width then addAt w (y * width + (x + 1)) errorPortion else w
  let w := if x + 2 < width then addAt w (y * width + (x + 2)) errorPortion else w
  let w := if 1 ≤ x ∧ y + 1 < height then addAt w ((y + 1) * width + (x - 1)) errorPortion else w
  let w := if y + 1 < height then addAt w ((y + 1) * width + x) errorPortion else w
  let w := if x + 1 < width ∧ y + 1 < height then addAt w ((y + 1) * width + (x + 1)) errorPortion else w
  let w := if y + 2 < height then addAt w ((y + 2) * width + x) errorPortion else w
  { work := w, acc := acc }

/-- `AtkinsonDitheringStrategy.apply`: clones the input into a working
buffer, scans pixels row-major, then flushes the final partial byte.  The
caller's buffer is only read, at the clone. -/
def atkinsonApply (g : GrayscaleData) : DitherOutcome :=
  let total := (g.width * g.height + 7) / 8
  let st0 : DiffState :=
    { work := g.data
      acc := { oneBit := List.replicate total 0, idx := 0, currentByte := 0, bitPos := 0 } }
  let st := (List.range g.height).foldl
    (fun st y => (List.range g.width).foldl (fun st x => atkinsonStep g.width g.height st y x) st)
    st0
  let acc := flushBit st.acc
  { result := { data := (acc.oneBit.take total) ++ List.replicate (total - acc.oneBit.length) 0
                width := g.width, height := g.height }
    callerBuffer := g.data }

/-- One pixel step of `FloydSteinbergDitheringStrategy.apply`: clamp,
quantise, pack the bit, and distribute the quantisation error with weights
7/16, 3/16, 5/16, 1/16 over the working buffer. -/
def floydSteinbergStep (width height : Nat) (st : DiffState) (y x : Nat) : DiffState :=
  let currentIndex := y * width + x
  let oldPixel := max 0 (min 255 (st.work.getD currentIndex 0))
  let newPixelValue : ℚ := if oldPixel < 128 then 0 else 255
  let pntgBit : Nat := if oldPixel < 128 then 1 else 0
  let acc := pushBit st.acc pntgBit
  let quantError := oldPixel - newPixelValue
  let w := st.work
  let w := if x + 1 < width then addAt w (currentIndex + 1) (quantError * (7 / 16)) else w
  let w := if 1 ≤ x ∧ y + 1 < height then addAt w ((y + 1) * width + (x - 1)) (quantError * (3 / 16)) else w
  let w := if y + 1 < height then addAt w ((y + 1) * width + x) (quantError * (5 / 16)) else w
  let w := if x + 1 < width ∧ y + 1 < height then addAt w ((y + 1) * width + (x + 1)) (quantError * (1 / 16)) else w
  { work := w, acc := acc }

/-- `FloydSteinbergDitheringStrategy.apply`: clone into a working buffer,
scan pixels row-major, flush.  The caller's buffer is only read, at the
clone. -/
def floydSteinbergApply (g : GrayscaleData) : DitherOutcome :=
  let total := (g.width * g.height + 7) / 8
  let st0 : DiffState :=
    { work := g.data
      acc := { oneBit := List.replicate total 0, idx := 0, currentByte := 0, bitPos := 0 } }
  let st := (List.range g.height).foldl
    (fun st y => (List.range g.width).foldl
      (fun st x => floydSteinbergStep g.width g.height st y x) st)
    st0
  let acc := flushBit st.acc
  { result := { data := (acc.oneBit.take total) ++ List.replicate (total - acc.oneBit.length) 0
                width := g.width, height := g.height }
    callerBuffer := g.data }

/-- Bayer threshold matrix and normalisation factor for sizes 2, 4, 8; any
other requested size falls back to the 4×4 matrix (with a console warning in
the source). -/
def bayerMatrix (matrixSize : Nat) : List (List Nat) × Nat :=
  if matrixSize = 2 then
    ([[0, 2], [3, 1]], 4)
  else if matrixSize = 8 then
    ([[0, 32, 8, 40, 2, 34, 10, 42],
      [48, 16, 56, 24, 50, 18, 58, 26],
      [12, 44, 4, 36, 14, 46, 6, 38],
      [60, 28, 52, 20, 62, 30, 54, 22],
      [3, 35, 11, 43, 1, 33, 9, 41],
      [51, 19, 59, 27, 49, 17, 57, 25],
      [15, 47, 7, 39, 13, 45, 5, 37],
      [63, 31, 55, 23, 61, 29, 53, 21]], 64)
  else
    ([[0, 8, 2, 10], [12, 4, 14, 6], [3, 11, 1, 9], [15, 7, 13, 5]], 16)

/-- `BayerDitheringStrategy.apply`: an ordered, stateless dither; black iff
`gs / 255 ≤ M[y mod n][x mod n] / n²`.  This strategy only reads the
caller's buffer. -/
def bayerApply (matrixSize : Nat) (g : GrayscaleData) : DitherOutcome :=
  let n := if matrixSize = 2 ∨ matrixSize = 4 ∨ matrixSize = 8 then matrixSize else 4
  let m := bayerMatrix matrixSize
  let total := (g.width * g.height + 7) / 8
  let st0 : BitAcc := { oneBit := List.replicate total 0, idx := 0, currentByte := 0, bitPos := 0 }
  let st := (List.range g.height).foldl
    (fun st y => (List.range g.width).foldl
      (fun st x =>
        let grayscaleValue := g.data.getD (y * g.width + x) 0
        let grayscaleNormalized := grayscaleValue / 255
        let bayerMatrixValue := (m.1.getD (y % n) []).getD (x % n) 0
        let bayerThresholdNormalized := (bayerMatrixValue : ℚ) / (m.2 : ℚ)
        let pntgBit : Nat := if grayscaleNormalized ≤ bayerThresholdNormalized then 1 else 0
        pushBit st pntgBit) st)
    st0
  let st := flushBit st
  { result := { data := (st.oneBit.take total) ++ List.replicate (total - st.oneBit.length) 0
                width := g.width, height := g.height }
    callerBuffer := g.data }

/-- C9: applying any of the four dithering strategies returns the caller's
grayscale buffer unmodified: Threshold and Bayer never write it, and the
error-diffusion strategies (Floyd–Steinberg, Atkinson) write only the cloned
working buffer `work`, as the definitions above make explicit. -/
theorem dithering_preserves_input (g : GrayscaleData) (thresholdValue : ℚ)
    (matrixSize : Nat) :
    (thresholdApply thresholdValue g).callerBuffer = g.data ∧
    (floydSteinbergApply g).callerBuffer = g.data ∧
    (atkinsonApply g).callerBuffer = g.data ∧
    (bayerApply matrixSize g).callerBuffer = g.data :=
  ⟨rfl, rfl, rfl, rfl⟩

end MacPaintLib

namespace MFSLib

/-! ## Byte primitives (mfs.js, class MFSLibUtils)

The volume image is a `Buffer`: a size and a byte-contents function.  The
`DataView` accessors throw on out-of-range offsets, so every primitive is in
`Except String`; `setUintN` wraps its value modulo `2^N` (hence the `Int`
arguments with `emod`). -/

def MFS_SIGNATURE : Nat := 0xD2D7
def SECTOR_SIZE : Nat := 512
def DEFAULT_ALLOC_BLOCK_SIZE_400K : Nat := 1024
def MDB_START_SECTOR : Nat := 2
def BOOT_BLOCK_SECTORS : Nat := 2

/-- Persistent byte store for the image: a binary trie over the low 32 bits
of the offset, so every access has fixed small depth.  Absent keys read as
zero, which models the zero-initialised `ArrayBuffer`. -/
inductive Mem where
  | empty : Mem
  | node (v : Option Nat) (zero one : Mem) : Mem

/-- Read the value at key `k`, consuming `d` bits of the key. -/
def Mem.getD : Nat → Mem → Nat → Option Nat
  | _, .empty, _ => none
  | 0, .node v _ _, _ => v
  | d + 1, .node _ z o, k =>
    if k % 2 = 0 then Mem.getD d z (k / 2) else Mem.getD d o (k / 2)

/-- Store `v` at key `k`, consuming `d` bits of the key. -/
def Mem.setD : Nat → Mem → Nat → Nat → Mem
  | 0, .empty, _, v => .node (some v) .empty .empty
  | 0, .node _ z o, _, v => .node (some v) z o
  | d + 1, .empty, k, v =>
    if k % 2 = 0 then .node none (Mem.setD d .empty (k / 2) v) .empty
    else .node none .empty (Mem.setD d .empty (k / 2) v)
  | d + 1, .node w z o, k, v =>
    if k % 2 = 0 then .node w (Mem.setD d z (k / 2) v) o
    else .node w z (Mem.setD d o (k / 2) v)

/-- Key width of the byte store; JavaScript buffer offsets fit well below
`2^32`. -/
def ADDR_BITS : Nat := 32

/-- The raw volume image: `size` bytes plus the byte store (every stored
value is kept `< 256` by the write primitives; unwritten bytes are 0). -/
structure Buffer where
  size : Nat
  mem : Mem

/-- The byte at offset `k`. -/
def Buffer.get (b : Buffer) (k : Nat) : Nat :=
  (Mem.getD ADDR_BITS b.mem k).getD 0

/-- Overwrite the byte at offset `k`. -/
def Buffer.setByte (b : Buffer) (k : Nat) (v : Nat) : Buffer :=
  { b with mem := Mem.setD ADDR_BITS b.mem k v }

/-- `DataView.getUint8`. -/
def readUint8 (b : Buffer) (off : Int) : Except String Nat :=
  if 0 ≤ off ∧ off + 1 ≤ (b.size : Int) then .ok (b.get off.toNat)
  else .error "DataView read out of bounds"

/-- `DataView.setUint8`: wraps the value modulo 256. -/
def writeUint8 (b : Buffer) (off : Int) (v : Int) : Except String Buffer :=
  if 0 ≤ off ∧ off + 1 ≤ (b.size : Int) then
    .ok (b.setByte off.toNat (v.emod 256).toNat)
  else .error "DataView write out of bounds"

/-- `DataView.getUint16(offset, false)` (big-endian). -/
def readUint16BE (b : Buffer) (off : Int) : Except String Nat :=
  if 0 ≤ off ∧ off + 2 ≤ (b.size : Int) then
    .ok (b.get off.toNat * 256 + b.get (off.toNat + 1))
  else .error "DataView read out of bounds"

/-- `DataView.setUint16(offset, value, false)`: wraps modulo 2^16, writes
big-endian. -/
def writeUint16BE (b : Buffer) (off : Int) (v : Int) : Except String Buffer :=
  if 0 ≤ off ∧ off + 2 ≤ (b.size : Int) then
    let w := (v.emod 65536).toNat
    .ok (((b.setByte off.toNat (w / 256)).setByte (off.toNat + 1) (w % 256)))
  else .error "DataView write out of bounds"

/-- `DataView.getUint32(offset, false)` (big-endian). -/
def readUint32BE (b : Buffer) (off : Int) : Except String Nat :=
  if 0 ≤ off ∧ off + 4 ≤ (b.size : Int) then
    .ok (((b.get off.toNat * 256 + b.get (off.toNat + 1)) * 256 +
          b.get (off.toNat + 2)) * 256 + b.get (off.toNat + 3))
  else .error "DataView read out of bounds"

/-- `DataView.setUint32(offset, value, false)`: wraps modulo 2^32, writes
big-endian. -/
def writeUint32BE (b : Buffer) (off : Int) (v : Int) : Except String Buffer :=
  if 0 ≤ off ∧ off + 4 ≤ (b.size : Int) then
    let w := (v.emod 4294967296).toNat
    .ok (((((b.setByte off.toNat (w / 16777216)).setByte
      (off.toNat + 1) (w / 65536 % 256)).setByte
      (off.toNat + 2) (w / 256 % 256)).setByte
      (off.toNat + 3) (w % 256)))
  else .error "DataView write out of bounds"

/-- Read `len` consecutive bytes starting at `off` (used for fixed strings
and Pascal-string bodies, each byte via `readUint8`). -/
def readBytes (b : Buffer) (off : Int) (len : Nat) : Except String (List Nat) :=
  (List.range len).foldlM (fun acc (k : Nat) => do
    let c ← readUint8 b (off + (k : Int))
    pure (acc ++ [c])) []

/-- `MFSLibUtils.readPascalString`: 1-byte length prefix, then
`min length maxLength` characters. -/
def readPascalString (b : Buffer) (off : Int) (maxLength : Nat) :
    Except String (List Nat) := do
  let length ← readUint8 b off
  let actualLength := min length maxLength
  readBytes b (off + 1) actualLength

/-- `MFSLibUtils.writePascalString`: write `min str.length (fixedLength - 1)`
characters after the length byte, zero-padding the fixed slot. -/
def writePascalString (b : Buffer) (off : Int) (str : List Nat)
    (fixedLength : Nat) : Except String Buffer := do
  let len := min str.length (fixedLength - 1)
  let b ← writeUint8 b off len
  let b ← (List.range len).foldlM (fun b (i : Nat) =>
    writeUint8 b (off + 1 + (i : Int)) (str.getD i 0)) b
  (List.range (fixedLength - 1 - len)).foldlM (fun b (j : Nat) =>
    writeUint8 b (off + 1 + (len : Int) + (j : Int)) 0) b

/-- A JavaScript `Date` is represented by its MFS timestamp (seconds since
1904-01-01 UTC); the source's `MFS_EPOCH_OFFSET` arithmetic converts
bijectively between `Date` and this count.  `mfsTimestampToDate` maps the
stored `0` to a null date. -/
def mfsTimestampToDate (t : Nat) : Option Nat :=
  if t = 0 then none else some t

/-- `MFSLibUtils.dateToMFSTimestamp`: a null date is stored as `0`. -/
def dateToMFSTimestamp (d : Option Nat) : Nat :=
  match d with
  | none => 0
  | some t => t

/-- `MFSLibUtils.getABMEntryFromTriplet`: decode one 12-bit ABM entry from a
3-byte triplet. -/
def getABMEntryFromTriplet (b0 b1 b2 : Nat) (isEvenIndex : Bool) : Nat :=
  if isEvenIndex then (b0 <<< 4) ||| (b1 >>> 4)
  else ((b1 &&& 0x0F) <<< 8) ||| b2

/-- `MFSLibUtils.packABMEntryToTriplet`: encode a 12-bit value into a 3-byte
triplet, preserving the untouched bytes and nibble; values above `0xFFF`
throw. -/
def packABMEntryToTriplet (value b0 b1 b2 : Nat) (isEvenIndex : Bool) :
    Except String (Nat × Nat × Nat) :=
  if 0xFFF < value then .error "ABM value exceeds 12-bit range"
  else if isEvenIndex then
    .ok ((value >>> 4) &&& 0xFF, (b1 &&& 0x0F) ||| ((value &&& 0x0F) <<< 4), b2)
  else
    .ok (b0, (b1 &&& 0xF0) ||| ((value >>> 8) &&& 0x0F), value &&& 0xFF)

/-! ## Volume state (mfs.js, class MFSVolume) -/

/-- The in-memory `this.volumeInfo` object.  `numFiles`, `numAllocBlocks`
and `freeAllocBlocks` are `Int` because the source can drive them negative
(tiny images, unbalanced deletes); the remaining fields only ever hold
non-negative values. -/
structure VolumeInfo where
  signature : Nat
  creationDate : Option Nat
  modificationDate : Option Nat
  attributes : Nat
  numFiles : Int
  dirStartBlock : Nat
  dirLengthBlocks : Nat
  numAllocBlocks : Int
  allocBlockSize : Nat
  clumpSize : Nat
  allocBlockStartSector : Nat
  nextFileNum : Nat
  freeAllocBlocks : Int
  volumeName : List Nat
  deriving Repr, DecidableEq

/-- An in-memory file directory entry (`this.fileDirectory[i]`); strings are
lists of JavaScript code units. -/
structure FileEntry where
  flags : Nat
  version : Nat
  ftype : List Nat
  creator : List Nat
  finderFlags : Nat
  iconV : Nat
  iconH : Nat
  folderNum : Nat
  fileNum : Nat
  dataForkStartBlock : Nat
  dataForkLogicalLength : Nat
  dataForkAllocLength : Nat
  resourceForkStartBlock : Nat
  resourceForkLogicalLength : Nat
  resourceForkAllocLength : Nat
  creationDate : Option Nat
  modificationDate : Option Nat
  filename : List Nat
  diskOffset : Nat
  entryLength : Nat
  deriving Repr, DecidableEq

/-- The full `MFSVolume` object state: the image buffer plus the three
in-memory caches. -/
structure MFSVolume where
  buffer : Buffer
  volumeInfo : VolumeInfo
  abm : List Nat
  fileDirectory : List FileEntry

/-- `MFSVolume._parseMDB`: decode the volume info fields and the packed ABM
from sectors 2–3 of the image. -/
def parseMDB (b : Buffer) : Except String (VolumeInfo × List Nat) := do
  let mdbOffset : Int := MDB_START_SECTOR * SECTOR_SIZE
  let signature ← readUint16BE b (mdbOffset + 0)
  let creationDate ← readUint32BE b (mdbOffset + 2)
  let modificationDate ← readUint32BE b (mdbOffset + 6)
  let attributes ← readUint16BE b (mdbOffset + 10)
  let numFiles ← readUint16BE b (mdbOffset + 12)
  let dirStartBlock ← readUint16BE b (mdbOffset + 14)
  let dirLengthBlocks ← readUint16BE b (mdbOffset + 16)
  let numAllocBlocks ← readUint16BE b (mdbOffset + 18)
  let allocBlockSize ← readUint32BE b (mdbOffset + 20)
  let clumpSize ← readUint32BE b (mdbOffset + 24)
  let allocBlockStartSector ← readUint16BE b (mdbOffset + 28)
  let nextFileNum ← readUint32BE b (mdbOffset + 30)
  let freeAllocBlocks ← readUint16BE b (mdbOffset + 34)
  let volumeName ← readPascalString b (mdbOffset + 36) 27
  let abmDiskOffset : Int := mdbOffset + 64
  let abm ← (List.range numAllocBlocks).foldlM (fun abm (i : Nat) => do
    let byteOffsetInABMData : Int := ((i / 2 : Nat) : Int) * 3
    let b0 ← readUint8 b (abmDiskOffset + byteOffsetInABMData)
    let b1 ← readUint8 b (abmDiskOffset + byteOffsetInABMData + 1)
    let b2 ← readUint8 b (abmDiskOffset + byteOffsetInABMData + 2)
    pure (abm ++ [getABMEntryFromTriplet b0 b1 b2 (i % 2 = 0)])) []
  pure ({ signature := signature
          creationDate := mfsTimestampToDate creationDate
          modificationDate := mfsTimestampToDate modificationDate
          attributes := attributes
          numFiles := numFiles
          dirStartBlock := dirStartBlock
          dirLengthBlocks := dirLengthBlocks
          numAllocBlocks := numAllocBlocks
          allocBlockSize := allocBlockSize
          clumpSize := clumpSize
          allocBlockStartSector := allocBlockStartSector
          nextFileNum := nextFileNum
          freeAllocBlocks := freeAllocBlocks
          volumeName := volumeName }, abm)

/-- One `i += 2` iteration of the ABM write loop of `MFSVolume._writeMDB`:
read the current triplet (zeros if out of range), pack the even entry, pack
the odd entry when it exists, write the three bytes back.  The
`_isFormattingNewImageInProgress` branch of the source is dead (the flag is
never set), so `tempABMForWriting` is always `this.abm`; a missing array
element packs as 0. -/
def writeMDBTriplet (abm : List Nat) (n : Nat) (b : Buffer) (t : Nat) :
    Except String Buffer := do
  let abmDiskOffset : Int := MDB_START_SECTOR * SECTOR_SIZE + 64
  let i := 2 * t
  let byteOffsetInABMData : Int := (i / 2) * 3
  let (b0, b1, b2) ←
    if abmDiskOffset + byteOffsetInABMData + 2 < (b.size : Int) then do
      let b0 ← readUint8 b (abmDiskOffset + byteOffsetInABMData)
      let b1 ← readUint8 b (abmDiskOffset + byteOffsetInABMData + 1)
      let b2 ← readUint8 b (abmDiskOffset + byteOffsetInABMData + 2)
      pure (b0, b1, b2)
    else pure (0, 0, 0)
  let (b0, b1, b2) ← packABMEntryToTriplet (abm.getD i 0) b0 b1 b2 true
  let (b0, b1, b2) ←
    if i + 1 < n then packABMEntryToTriplet (abm.getD (i + 1) 0) b0 b1 b2 false
    else pure (b0, b1, b2)
  let b ← writeUint8 b (abmDiskOffset + byteOffsetInABMData) b0
  let b ← writeUint8 b (abmDiskOffset + byteOffsetInABMData + 1) b1
  writeUint8 b (abmDiskOffset + byteOffsetInABMData + 2) b2

/-- `MFSVolume._writeMDB`: serialise the volume info fields, then repack the
in-memory ABM into the buffer two entries per 3-byte triplet. -/
def writeMDB (vi : VolumeInfo) (abm : List Nat) (b : Buffer) :
    Except String Buffer := do
  let mdbOffset : Int := MDB_START_SECTOR * SECTOR_SIZE
  let b ← writeUint16BE b (mdbOffset + 0) vi.signature
  let b ← writeUint32BE b (mdbOffset + 2) (dateToMFSTimestamp vi.creationDate)
  let b ← writeUint32BE b (mdbOffset + 6) (dateToMFSTimestamp vi.modificationDate)
  let b ← writeUint16BE b (mdbOffset + 10) vi.attributes
  let b ← writeUint16BE b (mdbOffset + 12) vi.numFiles
  let b ← writeUint16BE b (mdbOffset + 14) vi.dirStartBlock
  let b ← writeUint16BE b (mdbOffset + 16) vi.dirLengthBlocks
  let b ← writeUint16BE b (mdbOffset + 18) vi.numAllocBlocks
  let b ← writeUint32BE b (mdbOffset + 20) vi.allocBlockSize
  let b ← writeUint32BE b (mdbOffset + 24) vi.clumpSize
  let b ← writeUint16BE b (mdbOffset + 28) vi.allocBlockStartSector
  let b ← writeUint32BE b (mdbOffset + 30) vi.nextFileNum
  let b ← writeUint16BE b (mdbOffset + 34) vi.freeAllocBlocks
  let b ← writePascalString b (mdbOffset + 36) vi.volumeName 28
  let n := vi.numAllocBlocks.toNat
  (List.range ((n + 1) / 2)).foldlM (writeMDBTriplet abm n) b

/-- `MFSVolume._initializeFileDirectoryArea`: write a zero byte at every
2-byte-aligned offset of the directory region that lies inside the buffer. -/
def initFileDirectoryArea (vi : VolumeInfo) (b : Buffer) :
    Except String Buffer := do
  let dirStartOffset := vi.dirStartBlock * SECTOR_SIZE
  let dirTotalBytes := vi.dirLengthBlocks * SECTOR_SIZE
  (List.range ((dirTotalBytes + 1) / 2)).foldlM (fun b (t : Nat) => do
    let offset : Nat := 2 * t
    if ((dirStartOffset + offset : Nat) : Int) < (b.size : Int) then
      writeUint8 b ((dirStartOffset + offset : Nat) : Int) 0x00
    else pure b) b

/-- Loop of `MFSVolume._parseFileDirectory`.  An entry is at least 51 bytes,
so the directory region bounds the iteration count and the fuel passed by
`parseFileDirectory` (one unit per byte of the region) is never exhausted.
An entry whose flag bit 7 is clear stops the whole scan (the source comment:
for now, stop at first non-used entry). -/
def parseDirGo (b : Buffer) (vi : VolumeInfo) :
    Nat → Nat → List FileEntry → Except String (List FileEntry)
  | 0, _, _ => .error "unreachable: directory parse fuel exhausted"
  | fuel + 1, currentOffsetInDir, acc =>
    let dirStartOffset := vi.dirStartBlock * SECTOR_SIZE
    let dirTotalBytes := vi.dirLengthBlocks * SECTOR_SIZE
    if currentOffsetInDir < dirTotalBytes then
      let off : Int := dirStartOffset + currentOffsetInDir
      if (b.size : Int) ≤ off then .ok acc
      else do
        let flFlags ← readUint8 b off
        if flFlags &&& 0x80 = 0 then .ok acc
        else do
          let version ← readUint8 b (off + 1)
          -- dead first assignment of entry.type (readPascalString at off+1),
          -- kept for its bounds-checking side effect
          let _ ← readPascalString b (off + 2 - 1) 4
          let ftype ← readBytes b (off + 2) 4
          let creator ← readBytes b (off + 6) 4
          let finderFlags ← readUint16BE b (off + 10)
          let flPosRaw ← readUint32BE b (off + 12)
          let iconV := flPosRaw >>> 16
          let iconH := flPosRaw &&& 0xFFFF
          let folderNum ← readUint16BE b (off + 16)
          let fileNum ← readUint32BE b (off + 18)
          let dataForkStartBlock ← readUint16BE b (off + 22)
          let dataForkLogicalLength ← readUint32BE b (off + 24)
          let dataForkAllocLength ← readUint32BE b (off + 28)
          let resourceForkStartBlock ← readUint16BE b (off + 32)
          let resourceForkLogicalLength ← readUint32BE b (off + 34)
          let resourceForkAllocLength ← readUint32BE b (off + 38)
          let creationDate ← readUint32BE b (off + 42)
          let modificationDate ← readUint32BE b (off + 46)
          let flNamLen ← readUint8 b (off + 50)
          let filename ← readBytes b (off + 51) flNamLen
          let entryLength0 := 51 + flNamLen
          let entryLength := if entryLength0 % 2 ≠ 0 then entryLength0 + 1 else entryLength0
          let entry : FileEntry :=
            { flags := flFlags, version := version, ftype := ftype, creator := creator
              finderFlags := finderFlags, iconV := iconV, iconH := iconH
              folderNum := folderNum, fileNum := fileNum
              dataForkStartBlock := dataForkStartBlock
              dataForkLogicalLength := dataForkLogicalLength
              dataForkAllocLength := dataForkAllocLength
              resourceForkStartBlock := resourceForkStartBlock
              resourceForkLogicalLength := resourceForkLogicalLength
              resourceForkAllocLength := resourceForkAllocLength
              creationDate := mfsTimestampToDate creationDate
              modificationDate := mfsTimestampToDate modificationDate
              filename := filename
              diskOffset := dirStartOffset + currentOffsetInDir
              entryLength := entryLength }
          parseDirGo b vi fuel (currentOffsetInDir + entryLength) (acc ++ [entry])
    else .ok acc

/-- `MFSVolume._parseFileDirectory`: scan the directory region from its
first byte. -/
def parseFileDirectory (b : Buffer) (vi : VolumeInfo) :
    Except String (List FileEntry) :=
  parseDirGo b vi (vi.dirLengthBlocks * SECTOR_SIZE + 1) 0 []

/-- `MFSVolume._formatNewImage`: build a fresh zero-filled image of
`sizeKB * 1024` bytes, write the MDB for the fixed 400 KB-style geometry
(directory sectors 4–15, allocation blocks of 1024 bytes from sector 16),
zero the directory area, then re-parse the buffer to populate the in-memory
caches.  `now` is the wall-clock creation instant as an MFS timestamp. -/
def formatNewImage (sizeKB : Nat) (volumeName : List Nat) (now : Nat) :
    Except String MFSVolume := do
  let totalSizeBytes := sizeKB * 1024
  if totalSizeBytes % SECTOR_SIZE ≠ 0 then
    .error "Image size must be a multiple of sector size."
  else
  let allocBlockSize := DEFAULT_ALLOC_BLOCK_SIZE_400K
  if totalSizeBytes < BOOT_BLOCK_SECTORS * SECTOR_SIZE + 1024 + allocBlockSize then
    .error "Image size too small for basic MFS structures."
  else do
  -- `new ArrayBuffer(totalSizeBytes)` is zero-initialised
  let buffer : Buffer := { size := totalSizeBytes, mem := Mem.empty }
  let dirStartBlock := BOOT_BLOCK_SECTORS + 1024 / SECTOR_SIZE
  let dirLengthBlocks := 12
  let allocBlockStartSector := dirStartBlock + dirLengthBlocks
  let totalSectors := totalSizeBytes / SECTOR_SIZE
  let numSectorsForAllocBlocks : Int := (totalSectors : Int) - allocBlockStartSector
  let numAllocBlocks : Int :=
    numSectorsForAllocBlocks.fdiv (allocBlockSize / SECTOR_SIZE)
  let vi : VolumeInfo :=
    { signature := MFS_SIGNATURE
      creationDate := some now
      modificationDate := some now
      attributes := 0x0000
      numFiles := 0
      dirStartBlock := dirStartBlock
      dirLengthBlocks := dirLengthBlocks
      numAllocBlocks := numAllocBlocks
      allocBlockSize := allocBlockSize
      clumpSize := max (allocBlockSize * 8) allocBlockSize
      allocBlockStartSector := allocBlockStartSector
      nextFileNum := 1
      freeAllocBlocks := numAllocBlocks
      volumeName := volumeName }
  -- `this.abm` is still `[]` when `_writeMDB` runs during formatting
  let buffer ← writeMDB vi [] buffer
  let buffer ← initFileDirectoryArea vi buffer
  let (vi2, abm) ← parseMDB buffer
  let dir ← parseFileDirectory buffer vi2
  pure { buffer := buffer, volumeInfo := vi2, abm := abm, fileDirectory := dir }

/-! ## File operations (mfs.js, class MFSVolume)

The methods mutate `this` and can throw; a method is modelled as a function
returning `Except String α × State` so that the state reached at the moment
of a throw is preserved, exactly as a JavaScript exception leaves the
object.  (The byte-level helpers `_writeFileDirectoryEntry` and `_writeMDB`
are modelled as whole-buffer transformations; an out-of-bounds throw inside
them discards their partial byte writes, which no claim depends on.) -/

/-- Sequencing for state-preserving fallible steps. -/
def stBind {σ α β : Type} (x : Except String α × σ)
    (f : α → σ → Except String β × σ) : Except String β × σ :=
  match x with
  | (.ok a, s) => f a s
  | (.error e, s) => (.error e, s)

/-- `MFSVolume._getABMEntry` (read-only part). -/
def getABMEntryP (vi : VolumeInfo) (abm : List Nat) (mfsBlockNum : Nat) :
    Except String Nat :=
  if mfsBlockNum < 2 ∨ vi.numAllocBlocks + 2 ≤ (mfsBlockNum : Int) then
    .error "Invalid MFS block number for ABM lookup"
  else .ok (abm.getD (mfsBlockNum - 2) 0)

/-- `MFSVolume._setABMEntry`: bounds-check, 12-bit check, then update the
in-memory ABM. -/
def setABMEntryP (vi : VolumeInfo) (abm : List Nat) (mfsBlockNum : Nat)
    (value : Nat) : Except String (List Nat) :=
  if mfsBlockNum < 2 ∨ vi.numAllocBlocks + 2 ≤ (mfsBlockNum : Int) then
    .error "Invalid MFS block number for ABM update"
  else if 0xFFF < value then
    .error "ABM value exceeds 12-bit range."
  else .ok (abm.set (mfsBlockNum - 2) value)

/-- `MFSVolume._findFreeBlocks`: the first `count` ABM indices holding
`0x000`, in ascending order, as MFS block numbers; fewer available is an
error.  (The JS loop scans indices `0 ≤ i < numAllocBlocks` and stops once
`count` are found; an index beyond the array reads `undefined`, which is not
`0`.) -/
def findFreeBlocksP (vi : VolumeInfo) (abm : List Nat) (count : Nat) :
    Except String (List Nat) :=
  let freeBlocks :=
    ((((List.range vi.numAllocBlocks.toNat).filter
        (fun i => abm.get? i = some 0)).take count).map (· + 2))
  if freeBlocks.length < count then .error "Not enough free blocks."
  else .ok freeBlocks

/-- `MFSVolume._allocateBlockChain`: check the free counter, collect the
first free blocks, link them (`abm[bᵢ] := bᵢ₊₁`, last gets `0x001`), then
decrement `drFreeBks`.  A throw from `_setABMEntry` mid-loop keeps the
partial links, as in the source. -/
def allocateBlockChain (vi : VolumeInfo) (abm : List Nat) (numBlocks : Nat) :
    Except String (Nat × List Nat) × (VolumeInfo × List Nat) :=
  if numBlocks = 0 then (.ok (0, []), (vi, abm))
  else if vi.freeAllocBlocks < (numBlocks : Int) then
    (.error "Not enough free blocks in volume.", (vi, abm))
  else
    match findFreeBlocksP vi abm numBlocks with
    | .error e => (.error e, (vi, abm))
    | .ok blocks =>
      let linked := (List.range blocks.length).foldl
        (fun (st : Except String Unit × List Nat) i =>
          match st with
          | (.error e, abm) => (.error e, abm)
          | (.ok _, abm) =>
            let value := if i < blocks.length - 1 then blocks.getD (i + 1) 0 else 0x001
            match setABMEntryP vi abm (blocks.getD i 0) value with
            | .error e => (.error e, abm)
            | .ok abm2 => (.ok (), abm2))
        (.ok (), abm)
      match linked with
      | (.error e, abm2) => (.error e, (vi, abm2))
      | (.ok _, abm2) =>
        (.ok (blocks.getD 0 0, blocks),
         ({ vi with freeAllocBlocks := vi.freeAllocBlocks - numBlocks }, abm2))

/-- Walk of `MFSVolume._freeBlockChain`: zero each visited entry, stop on an
end-of-chain marker, a free entry, or an out-of-range link (the source only
warns in those cases), and propagate `_getABMEntry` throws with the partial
state.  Every continuing iteration zeroes a nonzero entry, so the fuel
`abm.length + 2` passed by `freeBlockChain` is never exhausted. -/
def freeGo (vi : VolumeInfo) : Nat → List Nat → Nat → Nat →
    Except String Nat × List Nat
  | 0, abm, _, _ => (.error "unreachable: free chain fuel exhausted", abm)
  | fuel + 1, abm, cur, freed =>
    if cur ≠ 1 ∧ cur ≠ 0 ∧ 2 ≤ cur then
      match getABMEntryP vi abm cur with
      | .error e => (.error e, abm)
      | .ok nxt =>
        match setABMEntryP vi abm cur 0 with
        | .error e => (.error e, abm)
        | .ok abm2 =>
          if nxt = 1 then (.ok (freed + 1), abm2)
          else if nxt = 0 then (.ok (freed + 1), abm2)
          else if vi.numAllocBlocks + 2 ≤ (nxt : Int) ∨ nxt < 2 then (.ok (freed + 1), abm2)
          else freeGo vi fuel abm2 nxt (freed + 1)
    else (.ok freed, abm)

/-- `MFSVolume._freeBlockChain`: walk and zero the chain, then add the freed
count to `drFreeBks` (skipped when the walk throws, as in the source). -/
def freeBlockChain (vi : VolumeInfo) (abm : List Nat) (startMFSBlockNum : Nat) :
    Except String Nat × (VolumeInfo × List Nat) :=
  if startMFSBlockNum = 0 then (.ok 0, (vi, abm))
  else
    match freeGo vi (abm.length + 2) abm startMFSBlockNum 0 with
    | (.error e, abm2) => (.error e, (vi, abm2))
    | (.ok freed, abm2) =>
      (.ok freed, ({ vi with freeAllocBlocks := vi.freeAllocBlocks + freed }, abm2))

/-- `MFSVolume._findFileEntryByName`: linear scan comparing names as code
unit sequences; returns the entry and its index. -/
def findFileEntryByName (dir : List FileEntry) (filename : List Nat) :
    Option (FileEntry × Nat) :=
  match dir.findIdx? (fun e => e.filename = filename) with
  | some i =>
    match dir[i]? with
    | some e => some (e, i)
    | none => none
  | none => none

/-- `MFSVolume._findFreeDirectorySlot`: the offset just past the last known
entry, if at least a minimal 52-byte entry still fits in the directory
region. -/
def findFreeDirectorySlot (vi : VolumeInfo) (dir : List FileEntry) :
    Except String Nat :=
  let dirStartOffsetOnDisk := vi.dirStartBlock * SECTOR_SIZE
  let dirTotalBytesOnDisk := vi.dirLengthBlocks * SECTOR_SIZE
  let lastEntryEndOffset := dir.foldl
    (fun m e => max m ((e.diskOffset - dirStartOffsetOnDisk) + e.entryLength)) 0
  if lastEntryEndOffset + 52 ≤ dirTotalBytesOnDisk then
    .ok (dirStartOffsetOnDisk + lastEntryEndOffset)
  else .error "File directory is full. Expansion not yet supported."

/-- The `entryObject.type.charCodeAt(i) || 0x3F` idiom: a missing character
(`NaN`) or a NUL code unit falls back to the `?` pad byte. -/
def codeOr3F (l : List Nat) (i : Nat) : Nat :=
  if l.getD i 0 = 0 then 0x3F else l.getD i 0

/-- `MFSVolume._writeFileDirectoryEntry`: serialise the 51-byte header, the
Pascal name, and the optional alignment pad at `diskOffset`. -/
def writeFileDirectoryEntry (e : FileEntry) (diskOffset : Nat) (b : Buffer) :
    Except String Buffer := do
  let off : Int := diskOffset
  let b ← writeUint8 b (off + 0) e.flags
  let b ← writeUint8 b (off + 1) e.version
  let b ← (List.range 4).foldlM (fun b (i : Nat) =>
    writeUint8 b (off + 2 + (i : Int)) (codeOr3F e.ftype i)) b
  let b ← (List.range 4).foldlM (fun b (i : Nat) =>
    writeUint8 b (off + 6 + (i : Int)) (codeOr3F e.creator i)) b
  let b ← writeUint16BE b (off + 10) e.finderFlags
  let rawIconPos := ((e.iconV &&& 0xFFFF) <<< 16) ||| (e.iconH &&& 0xFFFF)
  let b ← writeUint32BE b (off + 12) rawIconPos
  let b ← writeUint16BE b (off + 16) e.folderNum
  let b ← writeUint32BE b (off + 18) e.fileNum
  let b ← writeUint16BE b (off + 22) e.dataForkStartBlock
  let b ← writeUint32BE b (off + 24) e.dataForkLogicalLength
  let b ← writeUint32BE b (off + 28) e.dataForkAllocLength
  let b ← writeUint16BE b (off + 32) e.resourceForkStartBlock
  let b ← writeUint32BE b (off + 34) e.resourceForkLogicalLength
  let b ← writeUint32BE b (off + 38) e.resourceForkAllocLength
  let b ← writeUint32BE b (off + 42) (dateToMFSTimestamp e.creationDate)
  let b ← writeUint32BE b (off + 46) (dateToMFSTimestamp e.modificationDate)
  let nameLen := min e.filename.length 255
  let b ← writeUint8 b (off + 50) nameLen
  let b ← (List.range nameLen).foldlM (fun b (i : Nat) =>
    writeUint8 b (off + 51 + (i : Int)) (e.filename.getD i 0)) b
  let totalLength := 51 + nameLen
  if totalLength % 2 ≠ 0 then writeUint8 b (off + (totalLength : Int)) 0
  else pure b

/-- Loop of `MFSVolume._writeForkData`: copy up to `drAlBlkSiz` bytes of the
content into each allocated block in turn, stopping after the final byte. -/
def writeForkGo (vi : VolumeInfo) (content : List Nat) :
    List Nat → Nat → Buffer → Except String Buffer
  | [], _, b => .ok b
  | blk :: rest, bytesWritten, b => do
    let blockDiskOffset :=
      (vi.allocBlockStartSector + (blk - 2) * (vi.allocBlockSize / SECTOR_SIZE)) * SECTOR_SIZE
    let bytesToWrite := min vi.allocBlockSize (content.length - bytesWritten)
    let b ← (List.range bytesToWrite).foldlM (fun b (j : Nat) =>
      writeUint8 b ((blockDiskOffset + j : Nat) : Int) (content.getD (bytesWritten + j) 0)) b
    if content.length ≤ bytesWritten + bytesToWrite then .ok b
    else writeForkGo vi content rest (bytesWritten + bytesToWrite) b

/-- `MFSVolume._writeForkData`. -/
def writeForkData (vi : VolumeInfo) (content : List Nat) (blocks : List Nat)
    (b : Buffer) : Except String Buffer :=
  writeForkGo vi content blocks 0 b

/-- The metadata argument of `createFile`/`writeFile`. -/
structure FileMetadata where
  ftype : List Nat
  creator : List Nat
  folderNum : Option Nat
  finderFlags : Option Nat
  creationDate : Option Nat
  modDate : Option Nat
  deriving Repr, DecidableEq

/-- The record returned by `MFSVolume.getFileInfo`. -/
structure FileInfo where
  filename : List Nat
  ftype : List Nat
  creator : List Nat
  dataForkSize : Nat
  resourceForkSize : Nat
  creationDate : Option Nat
  modificationDate : Option Nat
  fileNum : Nat
  folderNum : Nat
  finderFlags : Nat
  iconV : Nat
  iconH : Nat
  diskOffset : Nat
  entryLength : Nat
  deriving Repr, DecidableEq

/-- `MFSVolume.getFileInfo`: a copy of the entry's public fields, or `null`. -/
def getFileInfo (v : MFSVolume) (filename : List Nat) : Option FileInfo :=
  match findFileEntryByName v.fileDirectory filename with
  | some (e, _) => some
    { filename := e.filename, ftype := e.ftype, creator := e.creator
      dataForkSize := e.dataForkLogicalLength
      resourceForkSize := e.resourceForkLogicalLength
      creationDate := e.creationDate, modificationDate := e.modificationDate
      fileNum := e.fileNum, folderNum := e.folderNum, finderFlags := e.finderFlags
      iconV := e.iconV, iconH := e.iconH
      diskOffset := e.diskOffset, entryLength := e.entryLength }
  | none => none

/-- An element of the `MFSVolume.listFiles()` result. -/
structure ListedFile where
  filename : List Nat
  ftype : List Nat
  creator : List Nat
  dataForkSize : Nat
  resourceForkSize : Nat
  creationDate : Option Nat
  modificationDate : Option Nat
  fileNum : Nat
  folderNum : Nat
  deriving Repr, DecidableEq

/-- `MFSVolume.listFiles`. -/
def listFiles (v : MFSVolume) : List ListedFile :=
  v.fileDirectory.map (fun e =>
    { filename := e.filename, ftype := e.ftype, creator := e.creator
      dataForkSize := e.dataForkLogicalLength
      resourceForkSize := e.resourceForkLogicalLength
      creationDate := e.creationDate, modificationDate := e.modificationDate
      fileNum := e.fileNum, folderNum := e.folderNum })

/-- `MFSVolume.deleteFile`: free both fork chains, clear bit 7 of the
on-disk flag byte, update the MDB, and remove the in-memory entry.  `now`
is the wall clock used for the volume modification date. -/
def deleteFile (filename : List Nat) (now : Nat) (v : MFSVolume) :
    Except String Bool × MFSVolume :=
  match findFileEntryByName v.fileDirectory filename with
  | none => (.error "File not found for deletion", v)
  | some (entry, indexInArray) =>
    match freeBlockChain v.volumeInfo v.abm entry.dataForkStartBlock with
    | (.error e, (vi1, abm1)) => (.error e, { v with volumeInfo := vi1, abm := abm1 })
    | (.ok _, (vi1, abm1)) =>
      match freeBlockChain vi1 abm1 entry.resourceForkStartBlock with
      | (.error e, (vi2, abm2)) => (.error e, { v with volumeInfo := vi2, abm := abm2 })
      | (.ok _, (vi2, abm2)) =>
        match readUint8 v.buffer entry.diskOffset with
        | .error e => (.error e, { v with volumeInfo := vi2, abm := abm2 })
        | .ok currentFlags =>
          match writeUint8 v.buffer entry.diskOffset ((currentFlags &&& 0x7F : Nat) : Int) with
          | .error e => (.error e, { v with volumeInfo := vi2, abm := abm2 })
          | .ok b2 =>
            let vi3 := { vi2 with numFiles := vi2.numFiles - 1, modificationDate := some now }
            match writeMDB vi3 abm2 b2 with
            | .error e =>
              (.error e, { buffer := b2, volumeInfo := vi3, abm := abm2
                           fileDirectory := v.fileDirectory })
            | .ok b3 =>
              (.ok true, { buffer := b3, volumeInfo := vi3, abm := abm2
                           fileDirectory := v.fileDirectory.eraseIdx indexInArray })

/-- `MFSVolume.writeFile`: delete any existing file of that name, allocate
the two fork chains, write the directory entry, copy the fork contents,
update the MDB, and append the in-memory entry. -/
def writeFile (filename : List Nat) (dataForkContent : Option (List Nat))
    (resourceForkContent : Option (List Nat)) (metadata : FileMetadata)
    (now : Nat) (v : MFSVolume) : Except String (Option FileInfo) × MFSVolume :=
  stBind
    (match findFileEntryByName v.fileDirectory filename with
     | some _ => deleteFile filename now v
     | none => (.ok true, v))
    (fun _ v1 =>
  let dataSize := match dataForkContent with | some c => c.length | none => 0
  let rsrcSize := match resourceForkContent with | some c => c.length | none => 0
  -- Math.ceil(size / drAlBlkSiz) on positive integers
  let blocksForData :=
    if 0 < dataSize then (dataSize + v1.volumeInfo.allocBlockSize - 1) / v1.volumeInfo.allocBlockSize else 0
  let blocksForRsrc :=
    if 0 < rsrcSize then (rsrcSize + v1.volumeInfo.allocBlockSize - 1) / v1.volumeInfo.allocBlockSize else 0
  match (if 0 < blocksForData then allocateBlockChain v1.volumeInfo v1.abm blocksForData
         else (.ok (0, []), (v1.volumeInfo, v1.abm))) with
  | (.error e, (vi, abm)) => (.error e, { v1 with volumeInfo := vi, abm := abm })
  | (.ok dataForkAllocInfo, (vi2, abm2)) =>
    match (if 0 < blocksForRsrc then allocateBlockChain vi2 abm2 blocksForRsrc
           else (.ok (0, []), (vi2, abm2))) with
    | (.error e, (vi, abm)) => (.error e, { v1 with volumeInfo := vi, abm := abm })
    | (.ok rsrcForkAllocInfo, (vi3, abm3)) =>
      match findFreeDirectorySlot vi3 v1.fileDirectory with
      | .error e => (.error e, { v1 with volumeInfo := vi3, abm := abm3 })
      | .ok newEntryDiskOffset =>
        let nameLenForCalc := min filename.length 255
        let entryLength0 := 51 + nameLenForCalc
        let fileEntry : FileEntry :=
          { flags := 0x80, version := 0x00
            ftype := metadata.ftype, creator := metadata.creator
            finderFlags := metadata.finderFlags.getD 0
            iconV := 0, iconH := 0
            folderNum := metadata.folderNum.getD 0
            fileNum := vi3.nextFileNum
            dataForkStartBlock := dataForkAllocInfo.1
            dataForkLogicalLength := dataSize
            dataForkAllocLength := blocksForData * vi3.allocBlockSize
            resourceForkStartBlock := rsrcForkAllocInfo.1
            resourceForkLogicalLength := rsrcSize
            resourceForkAllocLength := blocksForRsrc * vi3.allocBlockSize
            creationDate := some (metadata.creationDate.getD now)
            modificationDate := some (metadata.modDate.getD now)
            filename := filename
            diskOffset := newEntryDiskOffset
            entryLength := if entryLength0 % 2 ≠ 0 then entryLength0 + 1 else entryLength0 }
        let vi4 := { vi3 with nextFileNum := vi3.nextFileNum + 1 }
        match writeFileDirectoryEntry fileEntry newEntryDiskOffset v1.buffer with
        | .error e => (.error e, { v1 with volumeInfo := vi4, abm := abm3 })
        | .ok b1 =>
          match (if dataForkContent.isSome ∧ dataForkAllocInfo.2 ≠ [] then
                   writeForkData vi4 (dataForkContent.getD []) dataForkAllocInfo.2 b1
                 else .ok b1) with
          | .error e => (.error e, { buffer := b1, volumeInfo := vi4, abm := abm3
                                     fileDirectory := v1.fileDirectory })
          | .ok b2 =>
            match (if resourceForkContent.isSome ∧ rsrcForkAllocInfo.2 ≠ [] then
                     writeForkData vi4 (resourceForkContent.getD []) rsrcForkAllocInfo.2 b2
                   else .ok b2) with
            | .error e => (.error e, { buffer := b2, volumeInfo := vi4, abm := abm3
                                       fileDirectory := v1.fileDirectory })
            | .ok b3 =>
              let vi5 := { vi4 with numFiles := vi4.numFiles + 1
                                    modificationDate := some now }
              match writeMDB vi5 abm3 b3 with
              | .error e => (.error e, { buffer := b3, volumeInfo := vi5, abm := abm3
                                         fileDirectory := v1.fileDirectory })
              | .ok b4 =>
                let v2 : MFSVolume :=
                  { buffer := b4, volumeInfo := vi5, abm := abm3
                    fileDirectory := v1.fileDirectory ++ [fileEntry] }
                (.ok (getFileInfo v2 filename), v2))

/-- `MFSVolume.createFile`: argument validation, then `writeFile` with two
empty forks. -/
def createFile (filename : List Nat) (metadata : FileMetadata) (now : Nat)
    (v : MFSVolume) : Except String (Option FileInfo) × MFSVolume :=
  if filename = [] ∨ 255 < filename.length then
    (.error "Invalid filename or filename too long.", v)
  else if metadata.ftype.length ≠ 4 ∨ metadata.creator.length ≠ 4 then
    (.error "File type and creator (4 chars each) are required in metadata.", v)
  else writeFile filename none none metadata now v

/-- Walk of `MFSVolume.readFile`: copy each block's bytes into the output
(bounds-checked per byte in the source; the checks are antitone in the byte
index, so the block succeeds exactly when its last byte does, and a failure
returns the bytes read so far), then follow the ABM link.  With a positive
block size every iteration reads at least one byte, so the fuel
`logicalLength + 2` passed by `readFile` is never exhausted. -/
def readForkGo (v : MFSVolume) (logicalLength allocLength : Nat) :
    Nat → Nat → Nat → List Nat → Except String (List Nat)
  | 0, _, _, _ => .error "unreachable: read chain fuel exhausted"
  | fuel + 1, cur, bytesRead, acc =>
    if cur ≠ 1 ∧ cur ≠ 0 ∧ 2 ≤ cur ∧ bytesRead < logicalLength then
      let blockDiskOffset :=
        (v.volumeInfo.allocBlockStartSector + (cur - 2) * (v.volumeInfo.allocBlockSize / SECTOR_SIZE)) * SECTOR_SIZE
      let bytesToRead := min v.volumeInfo.allocBlockSize (logicalLength - bytesRead)
      if 0 < bytesToRead ∧
          ¬ (blockDiskOffset + (bytesToRead - 1) < v.buffer.size ∧
             bytesRead + (bytesToRead - 1) < allocLength) then
        -- out-of-bounds read attempt: return what has been read so far
        .ok acc
      else
        let acc2 := acc ++ (List.range bytesToRead).map (fun i => v.buffer.get (blockDiskOffset + i))
        let bytesRead2 := bytesRead + bytesToRead
        match getABMEntryP v.volumeInfo v.abm cur with
        | .error e => .error e
        | .ok nxt =>
          if nxt = 1 then
            .ok ((acc2 ++ List.replicate (allocLength - acc2.length) 0).take logicalLength)
          else if nxt = 0 ∨ nxt < 2 ∨ v.volumeInfo.numAllocBlocks + 2 ≤ (nxt : Int) then
            .error "Corrupted file chain"
          else readForkGo v logicalLength allocLength fuel nxt bytesRead2 acc2
    else .ok ((acc ++ List.replicate (allocLength - acc.length) 0).take logicalLength)

/-- `MFSVolume.readFile`: look up the entry, pick the fork, return an empty
buffer for an empty fork, else walk the chain and slice the output to the
logical length. -/
def readFile (filename : List Nat) (forkType : String) (v : MFSVolume) :
    Except String (List Nat) :=
  match findFileEntryByName v.fileDirectory filename with
  | none => .error "File not found for reading"
  | some (entry, _) =>
    match (if forkType = "data" then
             .ok (entry.dataForkStartBlock, entry.dataForkLogicalLength,
                  entry.dataForkAllocLength)
           else if forkType = "resource" then
             .ok (entry.resourceForkStartBlock, entry.resourceForkLogicalLength,
                  entry.resourceForkAllocLength)
           else (.error "Invalid fork type" : Except String (Nat × Nat × Nat))) with
    | .error e => .error e
    | .ok (startBlock, logicalLength, allocLength) =>
      if startBlock = 0 ∨ logicalLength = 0 then .ok []
      else readForkGo v logicalLength allocLength (logicalLength + 2) startBlock 0 []

/-! ## Call sequences -/

/-- One public mutating call. -/
inductive MFSOp where
  | create (filename : List Nat) (meta : FileMetadata) (now : Nat)
  | write (filename : List Nat) (dataFork : Option (List Nat))
      (resourceFork : Option (List Nat)) (meta : FileMetadata) (now : Nat)
  | delete (filename : List Nat) (now : Nat)

/-- Run one call, keeping only the state. -/
def runOp (op : MFSOp) (v : MFSVolume) : Except String Unit × MFSVolume :=
  match op with
  | .create f m n =>
    match createFile f m n v with
    | (.ok _, v2) => (.ok (), v2)
    | (.error e, v2) => (.error e, v2)
  | .write f d r m n =>
    match writeFile f d r m n v with
    | (.ok _, v2) => (.ok (), v2)
    | (.error e, v2) => (.error e, v2)
  | .delete f n =>
    match deleteFile f n v with
    | (.ok _, v2) => (.ok (), v2)
    | (.error e, v2) => (.error e, v2)

/-- Run a sequence of calls, requiring every call to succeed. -/
def runOps (v : MFSVolume) : List MFSOp → Except String MFSVolume
  | [] => .ok v
  | op :: ops =>
    match runOp op v with
    | (.ok _, v2) => runOps v2 ops
    | (.error _, _) => .error "call in sequence failed"

/-! ## Arithmetic toolkit for the 12-bit codec -/

theorem nat_and_mask (x k : Nat) : x &&& (2 ^ k - 1) = x % 2 ^ k := by
  apply Nat.eq_of_testBit_eq
  intro i
  simp [Nat.testBit_and, Nat.testBit_two_pow_sub_one, Nat.testBit_mod_two_pow,
    Bool.and_comm]

theorem nat_and_15 (x : Nat) : x &&& 15 = x % 16 := by
  have h := nat_and_mask x 4; norm_num at h; exact h

theorem nat_and_255 (x : Nat) : x &&& 255 = x % 256 := by
  have h := nat_and_mask x 8; norm_num at h; exact h

theorem nat_shiftLeft4 (x : Nat) : x <<< 4 = x * 16 := by
  rw [Nat.shiftLeft_eq]

theorem nat_shiftLeft8 (x : Nat) : x <<< 8 = x * 256 := by
  rw [Nat.shiftLeft_eq]

theorem nat_shiftRight4 (x : Nat) : x >>> 4 = x / 16 := by
  rw [Nat.shiftRight_eq_div_pow]

theorem nat_shiftRight8 (x : Nat) : x >>> 8 = x / 256 := by
  rw [Nat.shiftRight_eq_div_pow]

theorem nat_and_shift (x m k : Nat) :
    x &&& (m <<< k) = ((x >>> k) &&& m) <<< k := by
  apply Nat.eq_of_testBit_eq
  intro i
  simp only [Nat.testBit_and, Nat.testBit_shiftLeft, Nat.testBit_shiftRight]
  by_cases h : k ≤ i
  · simp [h, Nat.add_sub_cancel' h, Bool.and_left_comm, Bool.and_comm]
  · simp [h]

theorem nat_and_240 (x : Nat) : x &&& 240 = x / 16 % 16 * 16 := by
  have h := nat_and_shift x 15 4
  rw [show (15 <<< 4 : Nat) = 240 from rfl] at h
  rw [h, nat_and_15, nat_shiftLeft4, nat_shiftRight4]

theorem nat_or_low16 (a c : Nat) (hc : c < 16) : (a * 16) ||| c = a * 16 + c := by
  have hc4 : c < 2 ^ 4 := by omega
  have h := Nat.mul_add_lt_is_or hc4 a
  rw [Nat.mul_comm a 16]
  norm_num at h
  omega

theorem nat_or_low16' (a c : Nat) (hc : c < 16) : c ||| (a * 16) = a * 16 + c := by
  rw [Nat.lor_comm]
  exact nat_or_low16 a c hc

theorem nat_or_low256 (a c : Nat) (hc : c < 256) :
    (a * 256) ||| c = a * 256 + c := by
  have hc8 : c < 2 ^ 8 := by omega
  have h := Nat.mul_add_lt_is_or hc8 a
  rw [Nat.mul_comm a 256]
  norm_num at h
  omega

/-! ## Byte-store lemmas -/

theorem Mem.getD_setD_self (d : Nat) (m : Mem) (k v : Nat) (hk : k < 2 ^ d) :
    Mem.getD d (Mem.setD d m k v) k = some v := by
  induction d generalizing m k with
  | zero =>
    interval_cases k
    cases m <;> rfl
  | succ d ih =>
    have hk2 : k / 2 < 2 ^ d := by
      have h2 : 2 ^ (d + 1) = 2 * 2 ^ d := by ring
      omega
    cases m with
    | empty =>
      by_cases hp : k % 2 = 0 <;>
        simp [Mem.setD, Mem.getD, hp, ih Mem.empty (k / 2) hk2]
    | node w z o =>
      by_cases hp : k % 2 = 0
      · simp [Mem.setD, Mem.getD, hp, ih z (k / 2) hk2]
      · simp [Mem.setD, Mem.getD, hp, ih o (k / 2) hk2]

theorem Mem.getD_setD_ne (d : Nat) (m : Mem) (k k' v : Nat) (hne : k ≠ k')
    (hk : k < 2 ^ d) (hk' : k' < 2 ^ d) :
    Mem.getD d (Mem.setD d m k v) k' = Mem.getD d m k' := by
  induction d generalizing m k k' with
  | zero => interval_cases k; interval_cases k'; simp at hne
  | succ d ih =>
    have h2 : 2 ^ (d + 1) = 2 * 2 ^ d := by ring
    have hk2 : k / 2 < 2 ^ d := by omega
    have hk2' : k' / 2 < 2 ^ d := by omega
    cases m with
    | empty =>
      by_cases hp : k % 2 = 0 <;> by_cases hp' : k' % 2 = 0 <;>
        simp [Mem.setD, Mem.getD, hp, hp']
      · have hq : k / 2 ≠ k' / 2 := by omega
        simp [ih Mem.empty (k / 2) (k' / 2) hq hk2 hk2', Mem.getD]
      · have hq : k / 2 ≠ k' / 2 := by omega
        simp [ih Mem.empty (k / 2) (k' / 2) hq hk2 hk2', Mem.getD]
    | node w z o =>
      by_cases hp : k % 2 = 0 <;> by_cases hp' : k' % 2 = 0 <;>
        simp [Mem.setD, Mem.getD, hp, hp']
      · have hq : k / 2 ≠ k' / 2 := by omega
        simp [ih z (k / 2) (k' / 2) hq hk2 hk2']
      · have hq : k / 2 ≠ k' / 2 := by omega
        simp [ih o (k / 2) (k' / 2) hq hk2 hk2']

/-- `2 ^ ADDR_BITS` as a literal. -/
def ADDR_SPACE : Nat := 4294967296

theorem Buffer.get_setByte_self (b : Buffer) (k v : Nat) (hk : k < ADDR_SPACE) :
    (b.setByte k v).get k = v := by
  have hk' : k < 2 ^ ADDR_BITS := by
    simp only [ADDR_BITS]; simpa [ADDR_SPACE] using hk
  simp [Buffer.get, Buffer.setByte, Mem.getD_setD_self ADDR_BITS b.mem k v hk']

theorem Buffer.get_setByte_ne (b : Buffer) (k k' v : Nat) (hne : k ≠ k')
    (hk : k < ADDR_SPACE) (hk' : k' < ADDR_SPACE) :
    (b.setByte k v).get k' = b.get k' := by
  have h1 : k < 2 ^ ADDR_BITS := by
    simp only [ADDR_BITS]; simpa [ADDR_SPACE] using hk
  have h2 : k' < 2 ^ ADDR_BITS := by
    simp only [ADDR_BITS]; simpa [ADDR_SPACE] using hk'
  simp [Buffer.get, Buffer.setByte, Mem.getD_setD_ne ADDR_BITS b.mem k k' v hne h1 h2]

theorem Buffer.size_setByte (b : Buffer) (k v : Nat) :
    (b.setByte k v).size = b.size := rfl

/-- Frame predicate: `b'` has the same size as `b` and agrees with it on
every byte outside `[lo, hi)`. -/
def SameOutside (lo hi : Nat) (b b' : Buffer) : Prop :=
  b'.size = b.size ∧
  ∀ k, k < ADDR_SPACE → (k < lo ∨ hi ≤ k) → b'.get k = b.get k

theorem SameOutside.refl (lo hi : Nat) (b : Buffer) : SameOutside lo hi b b :=
  ⟨rfl, fun _ _ _ => rfl⟩

theorem SameOutside.trans {lo hi : Nat} {b1 b2 b3 : Buffer}
    (h1 : SameOutside lo hi b1 b2) (h2 : SameOutside lo hi b2 b3) :
    SameOutside lo hi b1 b3 :=
  ⟨h2.1.trans h1.1, fun k hk hr => (h2.2 k hk hr).trans (h1.2 k hk hr)⟩

theorem SameOutside.widen {lo hi lo' hi' : Nat} {b b' : Buffer}
    (h : SameOutside lo hi b b') (hlo : lo' ≤ lo) (hhi : hi ≤ hi') :
    SameOutside lo' hi' b b' :=
  ⟨h.1, fun k hk hr => h.2 k hk (by omega)⟩

/-! ## Read/write primitive specifications -/

theorem readUint8_spec (b : Buffer) (off : Nat) (h : off + 1 ≤ b.size) :
    readUint8 b (off : Int) = .ok (b.get off) := by
  rw [readUint8, if_pos ⟨by positivity, by exact_mod_cast h⟩]
  simp

theorem writeUint8_spec (b : Buffer) (off : Nat) (v : Int) (h : off + 1 ≤ b.size)
    (hsz : b.size ≤ ADDR_SPACE) :
    ∃ b', writeUint8 b (off : Int) v = .ok b' ∧ b'.size = b.size ∧
      b'.get off = (v.emod 256).toNat ∧ SameOutside off (off + 1) b b' := by
  rw [writeUint8, if_pos ⟨by positivity, by exact_mod_cast h⟩]
  refine ⟨_, rfl, rfl, ?_, rfl, ?_⟩
  · simp only [Int.toNat_natCast]
    exact Buffer.get_setByte_self b off _ (by omega)
  · intro k hk hr
    simp only [Int.toNat_natCast]
    exact Buffer.get_setByte_ne b off k _ (by omega) (by omega) hk

theorem readUint16BE_spec (b : Buffer) (off : Nat) (h : off + 2 ≤ b.size) :
    readUint16BE b (off : Int) = .ok (b.get off * 256 + b.get (off + 1)) := by
  rw [readUint16BE, if_pos ⟨by positivity, by exact_mod_cast h⟩]
  simp

theorem writeUint16BE_spec (b : Buffer) (off : Nat) (v : Int) (h : off + 2 ≤ b.size)
    (hsz : b.size ≤ ADDR_SPACE) :
    ∃ b', writeUint16BE b (off : Int) v = .ok b' ∧ b'.size = b.size ∧
      b'.get off = (v.emod 65536).toNat / 256 ∧
      b'.get (off + 1) = (v.emod 65536).toNat % 256 ∧
      SameOutside off (off + 2) b b' := by
  rw [writeUint16BE, if_pos ⟨by positivity, by exact_mod_cast h⟩]
  refine ⟨_, rfl, rfl, ?_, ?_, rfl, ?_⟩
  · simp only [Int.toNat_natCast]
    rw [Buffer.get_setByte_ne _ _ _ _ (by omega) (by omega) (by omega)]
    exact Buffer.get_setByte_self b off _ (by omega)
  · simp only [Int.toNat_natCast]
    exact Buffer.get_setByte_self _ (off + 1) _ (by omega)
  · intro k hk hr
    simp only [Int.toNat_natCast]
    rw [Buffer.get_setByte_ne _ _ _ _ (by omega) (by omega) hk]
    exact Buffer.get_setByte_ne b off k _ (by omega) (by omega) hk

theorem readUint32BE_spec (b : Buffer) (off : Nat) (h : off + 4 ≤ b.size) :
    readUint32BE b (off : Int) =
      .ok (((b.get off * 256 + b.get (off + 1)) * 256 + b.get (off + 2)) * 256 +
        b.get (off + 3)) := by
  rw [readUint32BE, if_pos ⟨by positivity, by exact_mod_cast h⟩]
  simp

theorem writeUint32BE_spec (b : Buffer) (off : Nat) (v : Int) (h : off + 4 ≤ b.size)
    (hsz : b.size ≤ ADDR_SPACE) :
    ∃ b', writeUint32BE b (off : Int) v = .ok b' ∧ b'.size = b.size ∧
      b'.get off = (v.emod 4294967296).toNat / 16777216 ∧
      b'.get (off + 1) = (v.emod 4294967296).toNat / 65536 % 256 ∧
      b'.get (off + 2) = (v.emod 4294967296).toNat / 256 % 256 ∧
      b'.get (off + 3) = (v.emod 4294967296).toNat % 256 ∧
      SameOutside off (off + 4) b b' := by
  rw [writeUint32BE, if_pos ⟨by positivity, by exact_mod_cast h⟩]
  refine ⟨_, rfl, rfl, ?_, ?_, ?_, ?_, rfl, ?_⟩
  · simp only [Int.toNat_natCast]
    rw [Buffer.get_setByte_ne _ _ _ _ (by omega) (by omega) (by omega),
      Buffer.get_setByte_ne _ _ _ _ (by omega) (by omega) (by omega),
      Buffer.get_setByte_ne _ _ _ _ (by omega) (by omega) (by omega)]
    exact Buffer.get_setByte_self b off _ (by omega)
  · simp only [Int.toNat_natCast]
    rw [Buffer.get_setByte_ne _ _ _ _ (by omega) (by omega) (by omega),
      Buffer.get_setByte_ne _ _ _ _ (by omega) (by omega) (by omega)]
    exact Buffer.get_setByte_self _ (off + 1) _ (by omega)
  · simp only [Int.toNat_natCast]
    rw [Buffer.get_setByte_ne _ _ _ _ (by omega) (by omega) (by omega)]
    exact Buffer.get_setByte_self _ (off + 2) _ (by omega)
  · simp only [Int.toNat_natCast]
    exact Buffer.get_setByte_self _ (off + 3) _ (by omega)
  · intro k hk hr
    simp only [Int.toNat_natCast]
    rw [Buffer.get_setByte_ne _ _ _ _ (by omega) (by omega) hk,
      Buffer.get_setByte_ne _ _ _ _ (by omega) (by omega) hk,
      Buffer.get_setByte_ne _ _ _ _ (by omega) (by omega) hk]
    exact Buffer.get_setByte_ne b off k _ (by omega) (by omega) hk

/-- Invariant-based success lemma for `foldlM` over `List.range` in the
`Except String` monad. -/
theorem foldlM_range_invariant {α : Type} (step : α → Nat → Except String α)
    (T : Nat) (x : α) (P : Nat → α → Prop)
    (h : ∀ t, t < T → ∀ a, P t a → ∃ a', step a t = .ok a' ∧ P (t + 1) a')
    (h0 : P 0 x) :
    ∃ a', (List.range T).foldlM step x = .ok a' ∧ P T a' := by
  induction T with
  | zero => exact ⟨x, rfl, h0⟩
  | succ T ih =>
    obtain ⟨a, hfold, hP⟩ := ih (fun t ht a ha => h t (by omega) a ha)
    obtain ⟨a', hstep, hP'⟩ := h T (by omega) a hP
    refine ⟨a', ?_, hP'⟩
    rw [List.range_succ, List.foldlM_append, hfold]
    simp only [List.foldlM_cons, List.foldlM_nil, bind_pure]
    exact hstep

/-! ## 12-bit ABM codec lemmas -/

theorem emod256_toNat (x : Nat) : (((x : Int)).emod 256).toNat = x % 256 := by
  show (((x : Int)) % 256).toNat = x % 256
  omega

theorem pack_even_ok (v b0 b1 b2 : Nat) (hv : v ≤ 4095) :
    packABMEntryToTriplet v b0 b1 b2 true =
      .ok ((v >>> 4) &&& 0xFF, (b1 &&& 0x0F) ||| ((v &&& 0x0F) <<< 4), b2) := by
  rw [packABMEntryToTriplet, if_neg (by omega)]
  rfl

theorem pack_odd_ok (v b0 b1 b2 : Nat) (hv : v ≤ 4095) :
    packABMEntryToTriplet v b0 b1 b2 false =
      .ok (b0, (b1 &&& 0xF0) ||| ((v >>> 8) &&& 0x0F), v &&& 0xFF) := by
  rw [packABMEntryToTriplet, if_neg (by omega)]
  rfl

theorem pack_over_fff (v b0 b1 b2 : Nat) (e : Bool) (hv : 0xFFF < v) :
    packABMEntryToTriplet v b0 b1 b2 e = .error "ABM value exceeds 12-bit range" := by
  rw [packABMEntryToTriplet, if_pos (by omega)]

/-- Decoding the even entry of a triplet whose even slot was packed with `v`
(and then stored bytewise modulo 256) recovers `v`, whatever the prior
middle byte held. -/
theorem decode_even_packed (v b1 b2 : Nat) (hv : v ≤ 4095) :
    getABMEntryFromTriplet (((v >>> 4) &&& 0xFF) % 256)
      (((b1 &&& 0x0F) ||| ((v &&& 0x0F) <<< 4)) % 256) (b2 % 256) true = v := by
  simp only [getABMEntryFromTriplet, if_true, nat_and_15, nat_and_255,
    nat_shiftLeft4, nat_shiftRight4]
  rw [nat_or_low16' (v % 16) (b1 % 16) (by omega)]
  rw [nat_or_low16 (v / 16 % 256 % 256) ((v % 16 * 16 + b1 % 16) % 256 / 16) (by omega)]
  omega

/-- Decoding both entries of a triplet packed even-then-odd (stored bytewise
modulo 256) recovers both values. -/
theorem decode_both_packed (v v2 b1 : Nat) (hv : v ≤ 4095) (hv2 : v2 ≤ 4095) :
    getABMEntryFromTriplet (((v >>> 4) &&& 0xFF) % 256)
      (((((b1 &&& 0x0F) ||| ((v &&& 0x0F) <<< 4)) &&& 0xF0) |||
        ((v2 >>> 8) &&& 0x0F)) % 256)
      ((v2 &&& 0xFF) % 256) true = v ∧
    getABMEntryFromTriplet (((v >>> 4) &&& 0xFF) % 256)
      (((((b1 &&& 0x0F) ||| ((v &&& 0x0F) <<< 4)) &&& 0xF0) |||
        ((v2 >>> 8) &&& 0x0F)) % 256)
      ((v2 &&& 0xFF) % 256) false = v2 := by
  simp only [nat_and_15, nat_shiftLeft4]
  rw [nat_or_low16' (v % 16) (b1 % 16) (by omega), nat_and_240,
    nat_shiftRight8]
  have h1 : (v % 16 * 16 + b1 % 16) / 16 % 16 = v % 16 := by omega
  rw [h1, nat_or_low16 (v % 16) (v2 / 256 % 16) (by omega)]
  constructor
  · simp only [getABMEntryFromTriplet, if_true, nat_and_255, nat_shiftLeft4,
      nat_shiftRight4]
    rw [nat_or_low16 (v / 16 % 256 % 256) ((v % 16 * 16 + v2 / 256 % 16) % 256 / 16)
      (by omega)]
    omega
  · simp only [getABMEntryFromTriplet, Bool.false_eq_true, if_false, nat_and_15,
      nat_and_255, nat_shiftLeft8]
    rw [nat_or_low256 ((v % 16 * 16 + v2 / 256 % 16) % 256 % 16) (v2 % 256 % 256)
      (by omega)]
    omega

theorem except_ok_bind {ε α β : Type} (x : α) (f : α → Except ε β) :
    (do let a ← Except.ok x; f a) = f x := rfl

theorem except_pure_bind {ε α β : Type} (x : α) (f : α → Except ε β) :
    (do let a ← (pure x : Except ε α); f a) = f x := rfl

theorem except_error_bind {ε α β : Type} (e : ε) (f : α → Except ε β) :
    (do let a ← (Except.error e : Except ε α); f a) = Except.error e := rfl

theorem writeMDBTriplet_spec (abm : List Nat) (n : Nat) (b : Buffer) (t : Nat)
    (hv : ∀ i, abm.getD i 0 ≤ 4095)
    (hb : 1088 + 3 * t + 3 ≤ b.size) (hsz : b.size ≤ ADDR_SPACE) :
    ∃ b', writeMDBTriplet abm n b t = .ok b' ∧
      SameOutside (1088 + 3 * t) (1088 + 3 * t + 3) b b' ∧
      getABMEntryFromTriplet (b'.get (1088 + 3 * t)) (b'.get (1088 + 3 * t + 1))
        (b'.get (1088 + 3 * t + 2)) true = abm.getD (2 * t) 0 ∧
      (2 * t + 1 < n →
        getABMEntryFromTriplet (b'.get (1088 + 3 * t)) (b'.get (1088 + 3 * t + 1))
          (b'.get (1088 + 3 * t + 2)) false = abm.getD (2 * t + 1) 0) := by
  rw [writeMDBTriplet]
  have e0 : (↑MDB_START_SECTOR * ↑SECTOR_SIZE + 64 + ↑(2 * t) / 2 * 3 : Int) =
      ((1088 + 3 * t : Nat) : Int) := by
    simp only [MDB_START_SECTOR, SECTOR_SIZE]; push_cast; omega
  have e1 : ((1088 + 3 * t : Nat) : Int) + 1 = ((1088 + 3 * t + 1 : Nat) : Int) := by
    push_cast; ring
  have e2 : ((1088 + 3 * t : Nat) : Int) + 2 = ((1088 + 3 * t + 2 : Nat) : Int) := by
    push_cast; ring
  rw [e0, e1, e2]
  have hcond : ((1088 + 3 * t + 2 : Nat) : Int) < (b.size : Int) := by
    have h : 1088 + 3 * t + 2 < b.size := by omega
    exact_mod_cast h
  rw [if_pos hcond]
  rw [readUint8_spec b (1088 + 3 * t) (by omega),
    readUint8_spec b (1088 + 3 * t + 1) (by omega),
    readUint8_spec b (1088 + 3 * t + 2) (by omega),
    except_ok_bind, except_ok_bind, except_ok_bind, except_pure_bind]
  dsimp only
  rw [pack_even_ok _ _ _ _ (hv (2 * t)), except_ok_bind]
  dsimp only
  by_cases hodd : 2 * t + 1 < n
  · rw [if_pos hodd, pack_odd_ok _ _ _ _ (hv (2 * t + 1)), except_ok_bind]
    dsimp only
    obtain ⟨b1, hw1, hs1, hg1, hfr1⟩ := writeUint8_spec b (1088 + 3 * t)
      (((abm.getD (2 * t) 0 >>> 4) &&& 255 : Nat) : Int) (by omega) hsz
    rw [hw1, except_ok_bind]
    obtain ⟨b2, hw2, hs2, hg2, hfr2⟩ := writeUint8_spec b1 (1088 + 3 * t + 1)
      ((((((b.get (1088 + 3 * t + 1)) &&& 15) ||| ((abm.getD (2 * t) 0 &&& 15) <<< 4))
          &&& 240) ||| ((abm.getD (2 * t + 1) 0 >>> 8) &&& 15) : Nat) : Int)
      (by omega) (by rw [hs1]; exact hsz)
    rw [hw2, except_ok_bind]
    obtain ⟨b3, hw3, hs3, hg3, hfr3⟩ := writeUint8_spec b2 (1088 + 3 * t + 2)
      ((abm.getD (2 * t + 1) 0 &&& 255 : Nat) : Int)
      (by rw [hs2, hs1]; omega) (by rw [hs2, hs1]; exact hsz)
    rw [hw3]
    rw [emod256_toNat] at hg1 hg2 hg3
    have k1 : b3.get (1088 + 3 * t) = ((abm.getD (2 * t) 0 >>> 4) &&& 255) % 256 := by
      rw [hfr3.2 _ (by omega) (by omega), hfr2.2 _ (by omega) (by omega)]
      exact hg1
    have k2 : b3.get (1088 + 3 * t + 1) =
        (((((b.get (1088 + 3 * t + 1)) &&& 15) ||| ((abm.getD (2 * t) 0 &&& 15) <<< 4))
          &&& 240) ||| ((abm.getD (2 * t + 1) 0 >>> 8) &&& 15)) % 256 := by
      rw [hfr3.2 _ (by omega) (by omega)]
      exact hg2
    have k3 : b3.get (1088 + 3 * t + 2) = (abm.getD (2 * t + 1) 0 &&& 255) % 256 := hg3
    obtain ⟨hde, hdo⟩ := decode_both_packed (abm.getD (2 * t) 0)
      (abm.getD (2 * t + 1) 0) (b.get (1088 + 3 * t + 1)) (hv (2 * t)) (hv (2 * t + 1))
    refine ⟨b3, rfl, ?_, ?_, fun _ => ?_⟩
    · exact ((hfr1.widen (by omega) (by omega)).trans
        (hfr2.widen (by omega) (by omega))).trans (hfr3.widen (by omega) (by omega))
    · rw [k1, k2, k3]; exact hde
    · rw [k1, k2, k3]; exact hdo
  · rw [if_neg hodd, except_pure_bind]
    dsimp only
    obtain ⟨b1, hw1, hs1, hg1, hfr1⟩ := writeUint8_spec b (1088 + 3 * t)
      (((abm.getD (2 * t) 0 >>> 4) &&& 255 : Nat) : Int) (by omega) hsz
    rw [hw1, except_ok_bind]
    obtain ⟨b2, hw2, hs2, hg2, hfr2⟩ := writeUint8_spec b1 (1088 + 3 * t + 1)
      ((((b.get (1088 + 3 * t + 1)) &&& 15) ||| ((abm.getD (2 * t) 0 &&& 15) <<< 4) :
        Nat) : Int)
      (by omega) (by rw [hs1]; exact hsz)
    rw [hw2, except_ok_bind]
    obtain ⟨b3, hw3, hs3, hg3, hfr3⟩ := writeUint8_spec b2 (1088 + 3 * t + 2)
      ((b.get (1088 + 3 * t + 2) : Nat) : Int)
      (by rw [hs2, hs1]; omega) (by rw [hs2, hs1]; exact hsz)
    rw [hw3]
    rw [emod256_toNat] at hg1 hg2 hg3
    have k1 : b3.get (1088 + 3 * t) = ((abm.getD (2 * t) 0 >>> 4) &&& 255) % 256 := by
      rw [hfr3.2 _ (by omega) (by omega), hfr2.2 _ (by omega) (by omega)]
      exact hg1
    have k2 : b3.get (1088 + 3 * t + 1) =
        (((b.get (1088 + 3 * t + 1)) &&& 15) |||
          ((abm.getD (2 * t) 0 &&& 15) <<< 4)) % 256 := by
      rw [hfr3.2 _ (by omega) (by omega)]
      exact hg2
    refine ⟨b3, rfl, ?_, ?_, fun h => absurd h hodd⟩
    · exact ((hfr1.widen (by omega) (by omega)).trans
        (hfr2.widen (by omega) (by omega))).trans (hfr3.widen (by omega) (by omega))
    · rw [k1, k2, hg3]
      exact decode_even_packed (abm.getD (2 * t) 0) (b.get (1088 + 3 * t + 1))
        (b.get (1088 + 3 * t + 2)) (hv (2 * t))

theorem emod65536_toNat (x : Nat) : (((x : Int)).emod 65536).toNat = x % 65536 := by
  show (((x : Int)) % 65536).toNat = x % 65536
  omega

theorem emod2_32_toNat (x : Nat) :
    (((x : Int)).emod 4294967296).toNat = x % 4294967296 := by
  show (((x : Int)) % 4294967296).toNat = x % 4294967296
  omega

/-- The ABM repacking loop of `_writeMDB`: triplet `s` of the final buffer
decodes back to entries `2s` and `2s+1`. -/
theorem writeMDB_abm_fold_spec (abm : List Nat) (n : Nat) (b : Buffer)
    (hv : ∀ i, abm.getD i 0 ≤ 4095)
    (hb : 1088 + 3 * ((n + 1) / 2) ≤ b.size) (hsz : b.size ≤ ADDR_SPACE) :
    ∃ b', (List.range ((n + 1) / 2)).foldlM (writeMDBTriplet abm n) b = .ok b' ∧
      SameOutside 1088 (1088 + 3 * ((n + 1) / 2)) b b' ∧
      ∀ s, s < (n + 1) / 2 →
        getABMEntryFromTriplet (b'.get (1088 + 3 * s)) (b'.get (1088 + 3 * s + 1))
          (b'.get (1088 + 3 * s + 2)) true = abm.getD (2 * s) 0 ∧
        (2 * s + 1 < n →
          getABMEntryFromTriplet (b'.get (1088 + 3 * s)) (b'.get (1088 + 3 * s + 1))
            (b'.get (1088 + 3 * s + 2)) false = abm.getD (2 * s + 1) 0) := by
  obtain ⟨b', hfold, hP⟩ := foldlM_range_invariant (writeMDBTriplet abm n)
    ((n + 1) / 2) b
    (fun t c =>
      SameOutside 1088 (1088 + 3 * ((n + 1) / 2)) b c ∧
      ∀ s, s < t →
        getABMEntryFromTriplet (c.get (1088 + 3 * s)) (c.get (1088 + 3 * s + 1))
          (c.get (1088 + 3 * s + 2)) true = abm.getD (2 * s) 0 ∧
        (2 * s + 1 < n →
          getABMEntryFromTriplet (c.get (1088 + 3 * s)) (c.get (1088 + 3 * s + 1))
            (c.get (1088 + 3 * s + 2)) false = abm.getD (2 * s + 1) 0))
    (fun t ht c hc => by
      obtain ⟨hso, hdec⟩ := hc
      obtain ⟨c', hok, hfr, hde, hdo⟩ := writeMDBTriplet_spec abm n c t hv
        (by rw [hso.1]; omega) (by rw [hso.1]; exact hsz)
      refine ⟨c', hok, ⟨hso.trans (hfr.widen (by omega) (by omega)), ?_⟩⟩
      intro s hs
      by_cases hst : s = t
      · subst hst
        exact ⟨hde, hdo⟩
      · have hs' : s < t := by omega
        have g0 : c'.get (1088 + 3 * s) = c.get (1088 + 3 * s) :=
          hfr.2 _ (by omega) (by omega)
        have g1 : c'.get (1088 + 3 * s + 1) = c.get (1088 + 3 * s + 1) :=
          hfr.2 _ (by omega) (by omega)
        have g2 : c'.get (1088 + 3 * s + 2) = c.get (1088 + 3 * s + 2) :=
          hfr.2 _ (by omega) (by omega)
        rw [g0, g1, g2]
        exact hdec s hs')
    ⟨SameOutside.refl _ _ _, fun s hs => absurd hs (by omega)⟩
  exact ⟨b', hfold, hP.1, hP.2⟩

/-- `readBytes` reads the underlying bytes. -/
theorem readBytes_spec (b : Buffer) (off : Nat) (len : Nat)
    (h : off + len ≤ b.size) :
    readBytes b (off : Int) len =
      .ok ((List.range len).map (fun i => b.get (off + i))) := by
  rw [readBytes]
  obtain ⟨acc, hfold, hP⟩ := foldlM_range_invariant
    (fun acc k => do
      let c ← readUint8 b ((off : Int) + k)
      pure (acc ++ [c]))
    len []
    (fun i a => a = (List.range i).map (fun j => b.get (off + j)))
    (fun t ht a ha => by
      have hr : readUint8 b ((off : Int) + (t : Int)) = .ok (b.get (off + t)) := by
        have h2 := readUint8_spec b (off + t) (by omega)
        rw [show ((off + t : Nat) : Int) = (off : Int) + (t : Int) from by push_cast; ring]
          at h2
        exact h2
      refine ⟨a ++ [b.get (off + t)], ?_, ?_⟩
      · dsimp only
        rw [hr, except_ok_bind]
        rfl
      · dsimp only at ha ⊢
        rw [ha, List.range_succ, List.map_append]
        rfl)
    rfl
  rw [hfold, hP]

/-- `readPascalString` reads the length byte then the characters. -/
theorem readPascalString_spec (b : Buffer) (off : Nat) (maxLength : Nat)
    (h : off + 1 + min (b.get off) maxLength ≤ b.size) :
    readPascalString b (off : Int) maxLength =
      .ok ((List.range (min (b.get off) maxLength)).map
        (fun i => b.get (off + 1 + i))) := by
  rw [readPascalString, readUint8_spec b off (by omega), except_ok_bind]
  have h2 := readBytes_spec b (off + 1) (min (b.get off) maxLength) (by omega)
  rw [show ((off + 1 : Nat) : Int) = (off : Int) + 1 from by push_cast; ring] at h2
  exact h2

/-- `writePascalString` writes the length byte, the truncated characters and
the zero pad, confined to the `fixedLength`-byte slot. -/
theorem writePascalString_spec (b : Buffer) (off : Nat) (str : List Nat)
    (fixedLength : Nat) (hfl : 1 ≤ fixedLength)
    (h : off + fixedLength ≤ b.size) (hsz : b.size ≤ ADDR_SPACE) :
    ∃ b', writePascalString b (off : Int) str fixedLength = .ok b' ∧
      SameOutside off (off + fixedLength) b b' ∧
      b'.get off = min str.length (fixedLength - 1) % 256 ∧
      (∀ i, i < min str.length (fixedLength - 1) →
        b'.get (off + 1 + i) = str.getD i 0 % 256) := by
  rw [writePascalString]
  obtain ⟨b1, hw1, hs1, hg1, hfr1⟩ := writeUint8_spec b off
    ((min str.length (fixedLength - 1) : Nat) : Int) (by omega) hsz
  rw [hw1, except_ok_bind]
  set len := min str.length (fixedLength - 1) with hlen
  have hlenlt : len < fixedLength := by omega
  obtain ⟨b2, hfold2, hP2⟩ := foldlM_range_invariant
    (fun c (i : Nat) => writeUint8 c ((off : Int) + 1 + (i : Int)) ((str.getD i 0 : Nat) : Int))
    len b1
    (fun t c =>
      SameOutside (off + 1) (off + 1 + len) b1 c ∧
      ∀ i, i < t → c.get (off + 1 + i) = str.getD i 0 % 256)
    (fun t ht c hc => by
      obtain ⟨c', hw, hsc, hgc, hfrc⟩ := writeUint8_spec c (off + 1 + t)
        ((str.getD t 0 : Nat) : Int) (by rw [hc.1.1, hs1]; omega)
        (by rw [hc.1.1, hs1]; exact hsz)
      rw [show ((off + 1 + t : Nat) : Int) = (off : Int) + 1 + (t : Int) from by
        push_cast; ring] at hw
      refine ⟨c', hw, ⟨hc.1.trans (hfrc.widen (by omega) (by omega)), ?_⟩⟩
      intro i hi
      by_cases hit : i = t
      · subst hit
        rw [hgc, emod256_toNat]
      · rw [hfrc.2 _ (by omega) (by omega)]
        exact hc.2 i (by omega))
    ⟨SameOutside.refl _ _ _, fun i hi => absurd hi (by omega)⟩
  rw [hfold2, except_ok_bind]
  obtain ⟨b3, hfold3, hP3⟩ := foldlM_range_invariant
    (fun c (j : Nat) => writeUint8 c ((off : Int) + 1 + (len : Int) + (j : Int)) 0)
    (fixedLength - 1 - len) b2
    (fun t c => SameOutside (off + 1 + len) (off + fixedLength) b2 c)
    (fun t ht c hc => by
      obtain ⟨c', hw, hsc, hgc, hfrc⟩ := writeUint8_spec c (off + 1 + len + t) 0
        (by rw [hc.1, hP2.1.1, hs1]; omega)
        (by rw [hc.1, hP2.1.1, hs1]; exact hsz)
      rw [show ((off + 1 + len + t : Nat) : Int) =
        (off : Int) + 1 + (len : Int) + (t : Int) from by push_cast; ring] at hw
      exact ⟨c', hw, hc.trans (hfrc.widen (by omega) (by omega))⟩)
    (SameOutside.refl _ _ _)
  refine ⟨b3, hfold3, ?_, ?_, ?_⟩
  · exact ((hfr1.widen (by omega) (by omega)).trans
      ((hP2.1.widen (by omega) (by omega)).trans (hP3.widen (by omega) (by omega))))
  · rw [hP3.2 _ (by omega) (by omega), hP2.1.2 _ (by omega) (by omega), hg1,
      emod256_toNat]
  · intro i hi
    rw [hP3.2 _ (by omega) (by omega)]
    exact hP2.2 i hi

/-- Full specification of `_writeMDB`: success, confinement to the MDB
region, and the on-disk bytes of the fields, the volume name and the packed
ABM. -/
theorem writeMDB_spec (vi : VolumeInfo) (abm : List Nat) (b : Buffer)
    (hv : ∀ i, abm.getD i 0 ≤ 4095)
    (hb : 1088 + 3 * ((vi.numAllocBlocks.toNat + 1) / 2) ≤ b.size)
    (hsz : b.size ≤ ADDR_SPACE) :
    ∃ b', writeMDB vi abm b = .ok b' ∧
      SameOutside 1024 (1088 + 3 * ((vi.numAllocBlocks.toNat + 1) / 2)) b b' ∧
      b'.get 1024 * 256 + b'.get 1025 = vi.signature % 65536 ∧
      b'.get 1036 * 256 + b'.get 1037 = (vi.numFiles.emod 65536).toNat ∧
      b'.get 1038 * 256 + b'.get 1039 = vi.dirStartBlock % 65536 ∧
      b'.get 1040 * 256 + b'.get 1041 = vi.dirLengthBlocks % 65536 ∧
      b'.get 1042 * 256 + b'.get 1043 = (vi.numAllocBlocks.emod 65536).toNat ∧
      (((b'.get 1044 * 256 + b'.get 1045) * 256 + b'.get 1046) * 256 + b'.get 1047
        = vi.allocBlockSize % 4294967296) ∧
      b'.get 1052 * 256 + b'.get 1053 = vi.allocBlockStartSector % 65536 ∧
      b'.get 1058 * 256 + b'.get 1059 = (vi.freeAllocBlocks.emod 65536).toNat ∧
      b'.get 1060 = min vi.volumeName.length 27 % 256 ∧
      (∀ i, i < min vi.volumeName.length 27 →
        b'.get (1060 + 1 + i) = vi.volumeName.getD i 0 % 256) ∧
      (∀ s, s < (vi.numAllocBlocks.toNat + 1) / 2 →
        getABMEntryFromTriplet (b'.get (1088 + 3 * s)) (b'.get (1088 + 3 * s + 1))
          (b'.get (1088 + 3 * s + 2)) true = abm.getD (2 * s) 0 ∧
        (2 * s + 1 < vi.numAllocBlocks.toNat →
          getABMEntryFromTriplet (b'.get (1088 + 3 * s)) (b'.get (1088 + 3 * s + 1))
            (b'.get (1088 + 3 * s + 2)) false = abm.getD (2 * s + 1) 0)) := by
  have hR : 1088 ≤ 1088 + 3 * ((vi.numAllocBlocks.toNat + 1) / 2) := by omega
  rw [writeMDB]
  have hbase : (↑MDB_START_SECTOR * ↑SECTOR_SIZE : Int) = ((1024 : Nat) : Int) := by
    norm_num [MDB_START_SECTOR, SECTOR_SIZE]
  rw [hbase]
  have g0 : (((1024 : Nat) : Int) + 0) = ((1024 : Nat) : Int) := by push_cast
  have g2 : (((1024 : Nat) : Int) + 2) = ((1026 : Nat) : Int) := by push_cast
  have g6 : (((1024 : Nat) : Int) + 6) = ((1030 : Nat) : Int) := by push_cast
  have g10 : (((1024 : Nat) : Int) + 10) = ((1034 : Nat) : Int) := by push_cast
  have g12 : (((1024 : Nat) : Int) + 12) = ((1036 : Nat) : Int) := by push_cast
  have g14 : (((1024 : Nat) : Int) + 14) = ((1038 : Nat) : Int) := by push_cast
  have g16 : (((1024 : Nat) : Int) + 16) = ((1040 : Nat) : Int) := by push_cast
  have g18 : (((1024 : Nat) : Int) + 18) = ((1042 : Nat) : Int) := by push_cast
  have g20 : (((1024 : Nat) : Int) + 20) = ((1044 : Nat) : Int) := by push_cast
  have g24 : (((1024 : Nat) : Int) + 24) = ((1048 : Nat) : Int) := by push_cast
  have g28 : (((1024 : Nat) : Int) + 28) = ((1052 : Nat) : Int) := by push_cast
  have g30 : (((1024 : Nat) : Int) + 30) = ((1054 : Nat) : Int) := by push_cast
  have g34 : (((1024 : Nat) : Int) + 34) = ((1058 : Nat) : Int) := by push_cast
  have g36 : (((1024 : Nat) : Int) + 36) = ((1060 : Nat) : Int) := by push_cast
  rw [g0, g2, g6, g10, g12, g14, g16, g18, g20, g24, g28, g30, g34, g36]
  obtain ⟨b1, hw1, hs1, ha1, hb1, hfr1⟩ :=
    writeUint16BE_spec b 1024 (vi.signature : Int) (by omega) hsz
  rw [hw1, except_ok_bind]
  obtain ⟨b2, hw2, hs2, _, _, _, _, hfr2⟩ :=
    writeUint32BE_spec b1 1026 ((dateToMFSTimestamp vi.creationDate : Nat) : Int)
      (by omega) (by rw [hs1]; exact hsz)
  rw [hw2, except_ok_bind]
  obtain ⟨b3, hw3, hs3, _, _, _, _, hfr3⟩ :=
    writeUint32BE_spec b2 1030 ((dateToMFSTimestamp vi.modificationDate : Nat) : Int)
      (by rw [hs2, hs1]; omega) (by rw [hs2, hs1]; exact hsz)
  rw [hw3, except_ok_bind]
  obtain ⟨b4, hw4, hs4, _, _, hfr4⟩ :=
    writeUint16BE_spec b3 1034 (vi.attributes : Int)
      (by rw [hs3, hs2, hs1]; omega) (by rw [hs3, hs2, hs1]; exact hsz)
  rw [hw4, except_ok_bind]
  have hs4' : b4.size = b.size := by rw [hs4, hs3, hs2, hs1]
  obtain ⟨b5, hw5, hs5, ha5, hb5, hfr5⟩ :=
    writeUint16BE_spec b4 1036 vi.numFiles
      (by rw [hs4']; omega) (by rw [hs4']; exact hsz)
  rw [hw5, except_ok_bind]
  have hs5' : b5.size = b.size := by rw [hs5, hs4']
  obtain ⟨b6, hw6, hs6, ha6, hb6, hfr6⟩ :=
    writeUint16BE_spec b5 1038 (vi.dirStartBlock : Int)
      (by rw [hs5']; omega) (by rw [hs5']; exact hsz)
  rw [hw6, except_ok_bind]
  have hs6' : b6.size = b.size := by rw [hs6, hs5']
  obtain ⟨b7, hw7, hs7, ha7, hb7, hfr7⟩ :=
    writeUint16BE_spec b6 1040 (vi.dirLengthBlocks : Int)
      (by rw [hs6']; omega) (by rw [hs6']; exact hsz)
  rw [hw7, except_ok_bind]
  have hs7' : b7.size = b.size := by rw [hs7, hs6']
  obtain ⟨b8, hw8, hs8, ha8, hb8, hfr8⟩ :=
    writeUint16BE_spec b7 1042 vi.numAllocBlocks
      (by rw [hs7']; omega) (by rw [hs7']; exact hsz)
  rw [hw8, except_ok_bind]
  have hs8' : b8.size = b.size := by rw [hs8, hs7']
  obtain ⟨b9, hw9, hs9, ha9, hb9, hc9, hd9, hfr9⟩ :=
    writeUint32BE_spec b8 1044 (vi.allocBlockSize : Int)
      (by rw [hs8']; omega) (by rw [hs8']; exact hsz)
  rw [hw9, except_ok_bind]
  have hs9' : b9.size = b.size := by rw [hs9, hs8']
  obtain ⟨b10, hw10, hs10, _, _, _, _, hfr10⟩ :=
    writeUint32BE_spec b9 1048 (vi.clumpSize : Int)
      (by rw [hs9']; omega) (by rw [hs9']; exact hsz)
  rw [hw10, except_ok_bind]
  have hs10' : b10.size = b.size := by rw [hs10, hs9']
  obtain ⟨b11, hw11, hs11, ha11, hb11, hfr11⟩ :=
    writeUint16BE_spec b10 1052 (vi.allocBlockStartSector : Int)
      (by rw [hs10']; omega) (by rw [hs10']; exact hsz)
  rw [hw11, except_ok_bind]
  have hs11' : b11.size = b.size := by rw [hs11, hs10']
  obtain ⟨b12, hw12, hs12, _, _, _, _, hfr12⟩ :=
    writeUint32BE_spec b11 1054 (vi.nextFileNum : Int)
      (by rw [hs11']; omega) (by rw [hs11']; exact hsz)
  rw [hw12, except_ok_bind]
  have hs12' : b12.size = b.size := by rw [hs12, hs11']
  obtain ⟨b13, hw13, hs13, ha13, hb13, hfr13⟩ :=
    writeUint16BE_spec b12 1058 vi.freeAllocBlocks
      (by rw [hs12']; omega) (by rw [hs12']; exact hsz)
  rw [hw13, except_ok_bind]
  have hs13' : b13.size = b.size := by rw [hs13, hs12']
  obtain ⟨b14, hw14, hfr14, hg14, hn14⟩ :=
    writePascalString_spec b13 1060 vi.volumeName 28 (by omega)
      (by rw [hs13']; omega) (by rw [hs13']; exact hsz)
  rw [hw14, except_ok_bind]
  have hs14' : b14.size = b.size := by rw [hfr14.1, hs13']
  obtain ⟨bF, hfold, hfrF, habmF⟩ :=
    writeMDB_abm_fold_spec abm vi.numAllocBlocks.toNat b14 hv
      (by rw [hs14']; omega) (by rw [hs14']; exact hsz)
  refine ⟨bF, hfold, ?_⟩
  have T15 : SameOutside 1060 (1088 + 3 * ((vi.numAllocBlocks.toNat + 1) / 2)) b13 bF :=
    (hfr14.widen (by omega) (by omega)).trans (hfrF.widen (by omega) (by omega))
  have T13 : SameOutside 1058 (1088 + 3 * ((vi.numAllocBlocks.toNat + 1) / 2)) b12 bF :=
    (hfr13.widen (by omega) (by omega)).trans (T15.widen (by omega) (by omega))
  have T12 : SameOutside 1054 (1088 + 3 * ((vi.numAllocBlocks.toNat + 1) / 2)) b11 bF :=
    (hfr12.widen (by omega) (by omega)).trans (T13.widen (by omega) (by omega))
  have T11 : SameOutside 1052 (1088 + 3 * ((vi.numAllocBlocks.toNat + 1) / 2)) b10 bF :=
    (hfr11.widen (by omega) (by omega)).trans (T12.widen (by omega) (by omega))
  have T10 : SameOutside 1048 (1088 + 3 * ((vi.numAllocBlocks.toNat + 1) / 2)) b9 bF :=
    (hfr10.widen (by omega) (by omega)).trans (T11.widen (by omega) (by omega))
  have T9 : SameOutside 1044 (1088 + 3 * ((vi.numAllocBlocks.toNat + 1) / 2)) b8 bF :=
    (hfr9.widen (by omega) (by omega)).trans (T10.widen (by omega) (by omega))
  have T8 : SameOutside 1042 (1088 + 3 * ((vi.numAllocBlocks.toNat + 1) / 2)) b7 bF :=
    (hfr8.widen (by omega) (by omega)).trans (T9.widen (by omega) (by omega))
  have T7 : SameOutside 1040 (1088 + 3 * ((vi.numAllocBlocks.toNat + 1) / 2)) b6 bF :=
    (hfr7.widen (by omega) (by omega)).trans (T8.widen (by omega) (by omega))
  have T6 : SameOutside 1038 (1088 + 3 * ((vi.numAllocBlocks.toNat + 1) / 2)) b5 bF :=
    (hfr6.widen (by omega) (by omega)).trans (T7.widen (by omega) (by omega))
  have T5 : SameOutside 1036 (1088 + 3 * ((vi.numAllocBlocks.toNat + 1) / 2)) b4 bF :=
    (hfr5.widen (by omega) (by omega)).trans (T6.widen (by omega) (by omega))
  have T4 : SameOutside 1034 (1088 + 3 * ((vi.numAllocBlocks.toNat + 1) / 2)) b3 bF :=
    (hfr4.widen (by omega) (by omega)).trans (T5.widen (by omega) (by omega))
  have T3 : SameOutside 1030 (1088 + 3 * ((vi.numAllocBlocks.toNat + 1) / 2)) b2 bF :=
    (hfr3.widen (by omega) (by omega)).trans (T4.widen (by omega) (by omega))
  have T2 : SameOutside 1026 (1088 + 3 * ((vi.numAllocBlocks.toNat + 1) / 2)) b1 bF :=
    (hfr2.widen (by omega) (by omega)).trans (T3.widen (by omega) (by omega))
  have T1 : SameOutside 1024 (1088 + 3 * ((vi.numAllocBlocks.toNat + 1) / 2)) b bF :=
    (hfr1.widen (by omega) (by omega)).trans (T2.widen (by omega) (by omega))
  refine ⟨T1, ?_, ?_, ?_, ?_, ?_, ?_, ?_, ?_, ?_, ?_, habmF⟩
  · rw [T2.2 1024 (by omega) (by omega), T2.2 1025 (by omega) (by omega), ha1, hb1,
      emod65536_toNat]
    omega
  · rw [T6.2 1036 (by omega) (by omega), T6.2 1037 (by omega) (by omega), ha5, hb5]
    omega
  · rw [T7.2 1038 (by omega) (by omega), T7.2 1039 (by omega) (by omega), ha6, hb6,
      emod65536_toNat]
    omega
  · rw [T8.2 1040 (by omega) (by omega), T8.2 1041 (by omega) (by omega), ha7, hb7,
      emod65536_toNat]
    omega
  · rw [T9.2 1042 (by omega) (by omega), T9.2 1043 (by omega) (by omega), ha8, hb8]
    omega
  · rw [T10.2 1044 (by omega) (by omega), T10.2 1045 (by omega) (by omega),
      T10.2 1046 (by omega) (by omega), T10.2 1047 (by omega) (by omega),
      ha9, hb9, hc9, hd9, emod2_32_toNat]
    omega
  · rw [T12.2 1052 (by omega) (by omega), T12.2 1053 (by omega) (by omega), ha11, hb11,
      emod65536_toNat]
    omega
  · rw [T15.2 1058 (by omega) (by omega), T15.2 1059 (by omega) (by omega), ha13, hb13]
    omega
  · rw [hfrF.2 1060 (by omega) (by omega)]
    exact hg14
  · intro i hi
    rw [hfrF.2 (1060 + 1 + i) (by omega) (by omega)]
    exact hn14 i hi

/-- Full specification of `_parseMDB` in terms of the buffer bytes. -/
theorem parseMDB_spec (b : Buffer)
    (hsize : 1088 + 3 * (((b.get 1042 * 256 + b.get 1043) + 1) / 2) ≤ b.size) :
    parseMDB b = .ok
      ({ signature := b.get 1024 * 256 + b.get 1025
         creationDate := mfsTimestampToDate
           (((b.get 1026 * 256 + b.get 1027) * 256 + b.get 1028) * 256 + b.get 1029)
         modificationDate := mfsTimestampToDate
           (((b.get 1030 * 256 + b.get 1031) * 256 + b.get 1032) * 256 + b.get 1033)
         attributes := b.get 1034 * 256 + b.get 1035
         numFiles := ((b.get 1036 * 256 + b.get 1037 : Nat) : Int)
         dirStartBlock := b.get 1038 * 256 + b.get 1039
         dirLengthBlocks := b.get 1040 * 256 + b.get 1041
         numAllocBlocks := ((b.get 1042 * 256 + b.get 1043 : Nat) : Int)
         allocBlockSize :=
           ((b.get 1044 * 256 + b.get 1045) * 256 + b.get 1046) * 256 + b.get 1047
         clumpSize :=
           ((b.get 1048 * 256 + b.get 1049) * 256 + b.get 1050) * 256 + b.get 1051
         allocBlockStartSector := b.get 1052 * 256 + b.get 1053
         nextFileNum :=
           ((b.get 1054 * 256 + b.get 1055) * 256 + b.get 1056) * 256 + b.get 1057
         freeAllocBlocks := ((b.get 1058 * 256 + b.get 1059 : Nat) : Int)
         volumeName := (List.range (min (b.get 1060) 27)).map
           (fun i => b.get (1060 + 1 + i)) },
       (List.range (b.get 1042 * 256 + b.get 1043)).map
         (fun i => getABMEntryFromTriplet (b.get (1088 + 3 * (i / 2)))
           (b.get (1088 + 3 * (i / 2) + 1)) (b.get (1088 + 3 * (i / 2) + 2))
           (i % 2 = 0))) := by
  rw [parseMDB]
  have hbase : (↑MDB_START_SECTOR * ↑SECTOR_SIZE : Int) = ((1024 : Nat) : Int) := by
    norm_num [MDB_START_SECTOR, SECTOR_SIZE]
  rw [hbase]
  have g0 : (((1024 : Nat) : Int) + 0) = ((1024 : Nat) : Int) := by push_cast
  have g2 : (((1024 : Nat) : Int) + 2) = ((1026 : Nat) : Int) := by push_cast
  have g6 : (((1024 : Nat) : Int) + 6) = ((1030 : Nat) : Int) := by push_cast
  have g10 : (((1024 : Nat) : Int) + 10) = ((1034 : Nat) : Int) := by push_cast
  have g12 : (((1024 : Nat) : Int) + 12) = ((1036 : Nat) : Int) := by push_cast
  have g14 : (((1024 : Nat) : Int) + 14) = ((1038 : Nat) : Int) := by push_cast
  have g16 : (((1024 : Nat) : Int) + 16) = ((1040 : Nat) : Int) := by push_cast
  have g18 : (((1024 : Nat) : Int) + 18) = ((1042 : Nat) : Int) := by push_cast
  have g20 : (((1024 : Nat) : Int) + 20) = ((1044 : Nat) : Int) := by push_cast
  have g24 : (((1024 : Nat) : Int) + 24) = ((1048 : Nat) : Int) := by push_cast
  have g28 : (((1024 : Nat) : Int) + 28) = ((1052 : Nat) : Int) := by push_cast
  have g30 : (((1024 : Nat) : Int) + 30) = ((1054 : Nat) : Int) := by push_cast
  have g34 : (((1024 : Nat) : Int) + 34) = ((1058 : Nat) : Int) := by push_cast
  have g36 : (((1024 : Nat) : Int) + 36) = ((1060 : Nat) : Int) := by push_cast
  have g64 : (((1024 : Nat) : Int) + 64) = ((1088 : Nat) : Int) := by push_cast
  rw [g0, g2, g6, g10, g12, g14, g16, g18, g20, g24, g28, g30, g34, g36, g64]
  rw [readUint16BE_spec b 1024 (by omega), except_ok_bind,
    readUint32BE_spec b 1026 (by omega), except_ok_bind,
    readUint32BE_spec b 1030 (by omega), except_ok_bind,
    readUint16BE_spec b 1034 (by omega), except_ok_bind,
    readUint16BE_spec b 1036 (by omega), except_ok_bind,
    readUint16BE_spec b 1038 (by omega), except_ok_bind,
    readUint16BE_spec b 1040 (by omega), except_ok_bind,
    readUint16BE_spec b 1042 (by omega), except_ok_bind,
    readUint32BE_spec b 1044 (by omega), except_ok_bind,
    readUint32BE_spec b 1048 (by omega), except_ok_bind,
    readUint16BE_spec b 1052 (by omega), except_ok_bind,
    readUint32BE_spec b 1054 (by omega), except_ok_bind,
    readUint16BE_spec b 1058 (by omega), except_ok_bind,
    readPascalString_spec b 1060 27
      (by have h27 := Nat.min_le_right (b.get 1060) 27; omega),
    except_ok_bind]
  obtain ⟨acc, hfold, hP⟩ := foldlM_range_invariant
    (fun abm (i : Nat) => do
      let b0 ← readUint8 b (((1088 : Nat) : Int) + ((i / 2 : Nat) : Int) * 3)
      let b1 ← readUint8 b (((1088 : Nat) : Int) + ((i / 2 : Nat) : Int) * 3 + 1)
      let b2 ← readUint8 b (((1088 : Nat) : Int) + ((i / 2 : Nat) : Int) * 3 + 2)
      pure (abm ++ [getABMEntryFromTriplet b0 b1 b2 (i % 2 = 0)]))
    (b.get 1042 * 256 + b.get 1043) []
    (fun t a => a = (List.range t).map
      (fun i => getABMEntryFromTriplet (b.get (1088 + 3 * (i / 2)))
        (b.get (1088 + 3 * (i / 2) + 1)) (b.get (1088 + 3 * (i / 2) + 2))
        (i % 2 = 0)))
    (fun t ht a ha => by
      have hr0 := readUint8_spec b (1088 + 3 * (t / 2)) (by omega)
      have hr1 := readUint8_spec b (1088 + 3 * (t / 2) + 1) (by omega)
      have hr2 := readUint8_spec b (1088 + 3 * (t / 2) + 2) (by omega)
      rw [show ((1088 + 3 * (t / 2) : Nat) : Int) =
        ((1088 : Nat) : Int) + ((t / 2 : Nat) : Int) * 3 from by push_cast; ring] at hr0
      rw [show ((1088 + 3 * (t / 2) + 1 : Nat) : Int) =
        ((1088 : Nat) : Int) + ((t / 2 : Nat) : Int) * 3 + 1 from by
          push_cast; ring] at hr1
      rw [show ((1088 + 3 * (t / 2) + 2 : Nat) : Int) =
        ((1088 : Nat) : Int) + ((t / 2 : Nat) : Int) * 3 + 2 from by
          push_cast; ring] at hr2
      refine ⟨a ++ [getABMEntryFromTriplet (b.get (1088 + 3 * (t / 2)))
        (b.get (1088 + 3 * (t / 2) + 1)) (b.get (1088 + 3 * (t / 2) + 2))
        (t % 2 = 0)], ?_, ?_⟩
      · dsimp only
        rw [hr0, except_ok_bind, hr1, except_ok_bind, hr2, except_ok_bind]
        rfl
      · dsimp only at ha ⊢
        rw [ha, List.range_succ, List.map_append]
        rfl)
    rfl
  dsimp only
  simp only [Nat.reduceAdd]
  rw [hfold, except_ok_bind, hP]
  rfl

theorem list_map_getD (l : List Nat) :
    (List.range l.length).map (fun i => l.getD i 0) = l := by
  apply List.ext_getElem
  · simp
  · intro i h1 h2
    simp only [List.getElem_map, List.getElem_range]
    rw [List.getD_eq_getElem l 0 h2]

/-- The witness volume info of the ABM codec round-trip: only
`numAllocBlocks` matters to the packed map. -/
def c7vi : VolumeInfo :=
  { signature := 0, creationDate := none, modificationDate := none
    attributes := 0, numFiles := 0, dirStartBlock := 0, dirLengthBlocks := 0
    numAllocBlocks := 3, allocBlockSize := 0, clumpSize := 0
    allocBlockStartSector := 0, nextFileNum := 0, freeAllocBlocks := 0
    volumeName := [] }

/-- C7: for every sequence of 12-bit values, packing the allocation block
map into 3-byte triplets with `_writeMDB` and unpacking it with `_parseMDB`
reproduces the sequence; a single-entry write preserves the untouched
nibble of the shared middle byte `b1` (and the other byte it does not own);
and packing a value above `0xFFF` throws the 12-bit range error. -/
theorem abm_codec_roundtrip (vi : VolumeInfo) (abm : List Nat) (b : Buffer)
    (hv : ∀ x ∈ abm, x ≤ 0xFFF)
    (hn : vi.numAllocBlocks = (abm.length : Int))
    (hlen : abm.length < 65536)
    (hb : 1088 + 3 * ((abm.length + 1) / 2) ≤ b.size)
    (hsz : b.size ≤ ADDR_SPACE) :
    (∃ b', writeMDB vi abm b = .ok b' ∧
      ∃ vi', parseMDB b' = .ok (vi', abm)) ∧
    (∀ value b0 b1 b2 c0 c1 c2,
      packABMEntryToTriplet value b0 b1 b2 true = .ok (c0, c1, c2) →
      c1 &&& 0x0F = b1 &&& 0x0F ∧ c2 = b2) ∧
    (∀ value b0 b1 b2 c0 c1 c2,
      packABMEntryToTriplet value b0 b1 b2 false = .ok (c0, c1, c2) →
      c1 &&& 0xF0 = b1 &&& 0xF0 ∧ c0 = b0) ∧
    (∀ value b0 b1 b2 isEven, 0xFFF < value →
      packABMEntryToTriplet value b0 b1 b2 isEven =
        .error "ABM value exceeds 12-bit range") := by
  have hgetd : ∀ i, abm.getD i 0 ≤ 4095 := by
    intro i
    by_cases hi : i < abm.length
    · have hmem : abm.getD i 0 ∈ abm := by
        rw [List.getD_eq_getElem abm 0 hi]
        exact List.getElem_mem hi
      exact hv _ hmem
    · rw [List.getD_eq_default abm 0 (by omega)]
      omega
  have hntn : vi.numAllocBlocks.toNat = abm.length := by rw [hn]; omega
  refine ⟨?_, ?_, ?_, fun value b0 b1 b2 isEven h => pack_over_fff _ _ _ _ _ h⟩
  · obtain ⟨b', hw, hso, hsig, hnf, hdirst, hdirlen, hnab, habsz, hast, hfree,
      hname0, hname, habm⟩ := writeMDB_spec vi abm b hgetd (by rw [hntn]; omega) hsz
    rw [hntn] at habm
    have hnab' : b'.get 1042 * 256 + b'.get 1043 = abm.length := by
      rw [hnab, hn]
      show ((abm.length : Int) % 65536).toNat = abm.length
      omega
    have hparse := parseMDB_spec b' (by rw [hnab', hso.1]; omega)
    have hmap : (List.range abm.length).map
        (fun i => getABMEntryFromTriplet (b'.get (1088 + 3 * (i / 2)))
          (b'.get (1088 + 3 * (i / 2) + 1)) (b'.get (1088 + 3 * (i / 2) + 2))
          (i % 2 = 0)) = abm := by
      have hcg : ∀ i ∈ List.range abm.length,
          getABMEntryFromTriplet (b'.get (1088 + 3 * (i / 2)))
            (b'.get (1088 + 3 * (i / 2) + 1)) (b'.get (1088 + 3 * (i / 2) + 2))
            (i % 2 = 0) = abm.getD i 0 := by
        intro i hi
        rw [List.mem_range] at hi
        by_cases hp : i % 2 = 0
        · rw [show (decide (i % 2 = 0)) = true from by simp [hp]]
          obtain ⟨he, _⟩ := habm (i / 2) (by omega)
          rw [show 2 * (i / 2) = i from by omega] at he
          exact he
        · rw [show (decide (i % 2 = 0)) = false from by simp [hp]]
          obtain ⟨_, ho⟩ := habm (i / 2) (by omega)
          have ho2 := ho (by omega)
          rw [show 2 * (i / 2) + 1 = i from by omega] at ho2
          exact ho2
      rw [List.map_congr_left hcg, list_map_getD]
    rw [hnab', hmap] at hparse
    exact ⟨b', hw, _, hparse⟩
  · intro value b0 b1 b2 c0 c1 c2 hpk
    have hval : ¬ (0xFFF < value) := by
      intro hgt
      rw [pack_over_fff _ _ _ _ _ hgt] at hpk
      exact absurd hpk (by simp)
    rw [pack_even_ok _ _ _ _ (by omega)] at hpk
    simp only [Except.ok.injEq, Prod.mk.injEq] at hpk
    obtain ⟨h0, h1, h2⟩ := hpk
    refine ⟨?_, h2.symm⟩
    rw [← h1]
    simp only [nat_and_15, nat_shiftLeft4]
    rw [nat_or_low16' (value % 16) (b1 % 16) (by omega)]
    omega
  · intro value b0 b1 b2 c0 c1 c2 hpk
    have hval : ¬ (0xFFF < value) := by
      intro hgt
      rw [pack_over_fff _ _ _ _ _ hgt] at hpk
      exact absurd hpk (by simp)
    rw [pack_odd_ok _ _ _ _ (by omega)] at hpk
    simp only [Except.ok.injEq, Prod.mk.injEq] at hpk
    obtain ⟨h0, h1, h2⟩ := hpk
    refine ⟨?_, h0.symm⟩
    rw [← h1]
    simp only [nat_and_240, nat_and_15, nat_shiftRight8]
    rw [nat_or_low16 (b1 / 16 % 16) (value / 256 % 16) (by omega)]
    omega

/-- Witness for C7 at a concrete three-entry map on a fresh 2048-byte
buffer. -/
theorem abm_codec_roundtrip_witness :
    ((∀ x ∈ ([5, 2748, 7] : List Nat), x ≤ 0xFFF) ∧
      c7vi.numAllocBlocks = (([5, 2748, 7] : List Nat).length : Int) ∧
      ([5, 2748, 7] : List Nat).length < 65536 ∧
      1088 + 3 * ((([5, 2748, 7] : List Nat).length + 1) / 2) ≤
        (Buffer.mk 2048 Mem.empty).size ∧
      (Buffer.mk 2048 Mem.empty).size ≤ ADDR_SPACE) ∧
    ((∃ b', writeMDB c7vi [5, 2748, 7] (Buffer.mk 2048 Mem.empty) = .ok b' ∧
      ∃ vi', parseMDB b' = .ok (vi', [5, 2748, 7])) ∧
     (∀ value b0 b1 b2 c0 c1 c2,
       packABMEntryToTriplet value b0 b1 b2 true = .ok (c0, c1, c2) →
       c1 &&& 0x0F = b1 &&& 0x0F ∧ c2 = b2) ∧
     (∀ value b0 b1 b2 c0 c1 c2,
       packABMEntryToTriplet value b0 b1 b2 false = .ok (c0, c1, c2) →
       c1 &&& 0xF0 = b1 &&& 0xF0 ∧ c0 = b0) ∧
     (∀ value b0 b1 b2 isEven, 0xFFF < value →
       packABMEntryToTriplet value b0 b1 b2 isEven =
         .error "ABM value exceeds 12-bit range")) :=
  ⟨⟨by decide, by decide, by decide, by decide, by decide⟩,
   abm_codec_roundtrip c7vi [5, 2748, 7] (Buffer.mk 2048 Mem.empty)
     (by decide) (by decide) (by decide) (by decide) (by decide)⟩

/-! ## Directory-area initialisation and directory parsing -/

/-- `_initializeFileDirectoryArea` zeroes every 2-byte-aligned byte of the
directory region and touches nothing else. -/
theorem initFileDirectoryArea_spec (vi : VolumeInfo) (b : Buffer)
    (hsize : vi.dirStartBlock * SECTOR_SIZE + vi.dirLengthBlocks * SECTOR_SIZE ≤ b.size)
    (hsz : b.size ≤ ADDR_SPACE) :
    ∃ b', initFileDirectoryArea vi b = .ok b' ∧
      SameOutside (vi.dirStartBlock * SECTOR_SIZE)
        (vi.dirStartBlock * SECTOR_SIZE + vi.dirLengthBlocks * SECTOR_SIZE) b b' ∧
      ∀ t, t < (vi.dirLengthBlocks * SECTOR_SIZE + 1) / 2 →
        b'.get (vi.dirStartBlock * SECTOR_SIZE + 2 * t) = 0 := by
  rw [initFileDirectoryArea]
  dsimp only
  obtain ⟨b', hfold, hP⟩ := foldlM_range_invariant
    (fun c (t : Nat) =>
      if ((vi.dirStartBlock * SECTOR_SIZE + 2 * t : Nat) : Int) < (c.size : Int) then
        writeUint8 c (((vi.dirStartBlock * SECTOR_SIZE + 2 * t : Nat)) : Int) 0x00
      else pure c)
    ((vi.dirLengthBlocks * SECTOR_SIZE + 1) / 2) b
    (fun t c =>
      SameOutside (vi.dirStartBlock * SECTOR_SIZE)
        (vi.dirStartBlock * SECTOR_SIZE + vi.dirLengthBlocks * SECTOR_SIZE) b c ∧
      ∀ s, s < t → c.get (vi.dirStartBlock * SECTOR_SIZE + 2 * s) = 0)
    (fun t ht c hc => by
      have hoff : vi.dirStartBlock * SECTOR_SIZE + 2 * t <
          vi.dirStartBlock * SECTOR_SIZE + vi.dirLengthBlocks * SECTOR_SIZE := by
        omega
      have hcond : ((vi.dirStartBlock * SECTOR_SIZE + 2 * t : Nat) : Int) <
          (c.size : Int) := by
        rw [hc.1.1]
        have h2 : vi.dirStartBlock * SECTOR_SIZE + 2 * t < b.size := by omega
        exact_mod_cast h2
      obtain ⟨c', hw, hsc, hgc, hfrc⟩ := writeUint8_spec c
        (vi.dirStartBlock * SECTOR_SIZE + 2 * t) 0x00
        (by rw [hc.1.1]; omega) (by rw [hc.1.1]; exact hsz)
      refine ⟨c', ?_, ?_, ?_⟩
      · dsimp only
        rw [if_pos hcond]
        exact hw
      · exact hc.1.trans (hfrc.widen (by omega) (by omega))
      · intro s hs
        by_cases hst : s = t
        · subst hst
          rw [hgc]
          rfl
        · rw [hfrc.2 _ (by omega) (by omega)]
          exact hc.2 s (by omega))
    ⟨SameOutside.refl _ _ _, fun s hs => absurd hs (by omega)⟩
  exact ⟨b', hfold, hP.1, hP.2⟩

/-- If the very first directory byte has flag bit 7 clear, the scan of
`_parseFileDirectory` ends at once with the entries collected so far. -/
theorem parseDirGo_first_clear (b : Buffer) (vi : VolumeInfo) (fuel : Nat)
    (acc : List FileEntry)
    (hdir : 0 < vi.dirLengthBlocks * SECTOR_SIZE)
    (hsize : vi.dirStartBlock * SECTOR_SIZE < b.size)
    (hflag : b.get (vi.dirStartBlock * SECTOR_SIZE) &&& 0x80 = 0) :
    parseDirGo b vi (fuel + 1) 0 acc = .ok acc := by
  rw [parseDirGo]
  rw [if_pos (by omega : (0 : Nat) < vi.dirLengthBlocks * SECTOR_SIZE)]
  have hoff : ((vi.dirStartBlock * SECTOR_SIZE : Nat) : Int) + ((0 : Nat) : Int) =
      ((vi.dirStartBlock * SECTOR_SIZE : Nat) : Int) := by push_cast; ring
  rw [hoff]
  rw [if_neg (by
    have h2 : ¬ (b.size ≤ vi.dirStartBlock * SECTOR_SIZE) := by omega
    intro hcon
    exact h2 (by exact_mod_cast hcon))]
  rw [readUint8_spec b (vi.dirStartBlock * SECTOR_SIZE) (by omega), except_ok_bind]
  rw [if_pos hflag]

/-! ## Formatting a fresh 400 KB volume -/

/-- The volume info that `_formatNewImage` computes for a 400 KB image named
"MyDisk" (code units `[77, 121, 68, 105, 115, 107]`). -/
def vi400 (now : Nat) : VolumeInfo :=
  { signature := 0xD2D7, creationDate := some now, modificationDate := some now
    attributes := 0x0000, numFiles := 0, dirStartBlock := 4, dirLengthBlocks := 12
    numAllocBlocks := 392, allocBlockSize := 1024, clumpSize := 8192
    allocBlockStartSector := 16, nextFileNum := 1, freeAllocBlocks := 392
    volumeName := [77, 121, 68, 105, 115, 107] }

theorem formatNewImage_400_eq (now : Nat) :
    formatNewImage 400 [77, 121, 68, 105, 115, 107] now = (do
      let buffer ← writeMDB (vi400 now) []
        ({ size := 409600, mem := Mem.empty } : Buffer)
      let buffer ← initFileDirectoryArea (vi400 now) buffer
      let (vi2, abm) ← parseMDB buffer
      let dir ← parseFileDirectory buffer vi2
      pure { buffer := buffer, volumeInfo := vi2, abm := abm,
             fileDirectory := dir }) := rfl

set_option maxRecDepth 4000

/-- Formatting a fresh 400 KB volume named "MyDisk": success, the claimed
geometry fields, an all-free allocation map and an empty directory. -/
theorem formatNewImage_400_spec (now : Nat) :
    ∃ v, formatNewImage 400 [77, 121, 68, 105, 115, 107] now = .ok v ∧
      v.volumeInfo.signature = 0xD2D7 ∧
      v.volumeInfo.numAllocBlocks = (392 : Int) ∧
      v.volumeInfo.freeAllocBlocks = (392 : Int) ∧
      v.volumeInfo.dirStartBlock = 4 ∧
      v.volumeInfo.dirLengthBlocks = 12 ∧
      v.volumeInfo.allocBlockStartSector = 16 ∧
      v.volumeInfo.allocBlockSize = 1024 ∧
      v.volumeInfo.volumeName = [77, 121, 68, 105, 115, 107] ∧
      v.volumeInfo.numFiles = (0 : Int) ∧
      v.abm = List.replicate 392 0 ∧
      v.fileDirectory = [] ∧
      v.buffer.size = 409600 := by
  rw [formatNewImage_400_eq]
  have hv0 : ∀ i, ([] : List Nat).getD i 0 ≤ 4095 := fun i => by
    simp [List.getD]
  obtain ⟨b1, hw1, hso1, hsig, hnf, hdirst, hdirlen, hnab, habsz, hast, hfree,
      hname0, hnamei, habm⟩ :=
    writeMDB_spec (vi400 now) [] ({ size := 409600, mem := Mem.empty } : Buffer)
      hv0 (by dsimp only [vi400]; omega) (by norm_num [ADDR_SPACE])
  rw [hw1, except_ok_bind]
  have hb1size : b1.size = 409600 := hso1.1
  have ksig : b1.get 1024 * 256 + b1.get 1025 = 53975 :=
    hsig.trans (by norm_num [vi400])
  have knf : b1.get 1036 * 256 + b1.get 1037 = 0 :=
    hnf.trans (by simp only [vi400]; decide)
  have kdirst : b1.get 1038 * 256 + b1.get 1039 = 4 :=
    hdirst.trans (by norm_num [vi400])
  have kdirlen : b1.get 1040 * 256 + b1.get 1041 = 12 :=
    hdirlen.trans (by norm_num [vi400])
  have knab : b1.get 1042 * 256 + b1.get 1043 = 392 :=
    hnab.trans (by simp only [vi400]; decide)
  have kabsz : ((b1.get 1044 * 256 + b1.get 1045) * 256 + b1.get 1046) * 256 +
      b1.get 1047 = 1024 := habsz.trans (by norm_num [vi400])
  have kast : b1.get 1052 * 256 + b1.get 1053 = 16 :=
    hast.trans (by norm_num [vi400])
  have kfree : b1.get 1058 * 256 + b1.get 1059 = 392 :=
    hfree.trans (by simp only [vi400]; decide)
  have k1060 : b1.get 1060 = 6 := hname0.trans (by norm_num [vi400])
  have hmin : min ((vi400 now).volumeName.length) 27 = 6 := by norm_num [vi400]
  rw [hmin] at hnamei
  have kn : ∀ i, i < 6 →
      b1.get (1061 + i) = [77, 121, 68, 105, 115, 107].getD i 0 % 256 := by
    intro i hi
    have h := hnamei i hi
    rw [show 1060 + 1 + i = 1061 + i from by omega] at h
    exact h
  have hnn : (vi400 now).numAllocBlocks.toNat = 392 := by
    simp only [vi400]; decide
  rw [hnn] at habm
  simp only [List.getD_nil] at habm
  obtain ⟨b2, hw2, hso2, hzero⟩ := initFileDirectoryArea_spec (vi400 now) b1
    (by rw [hb1size]; norm_num [vi400, SECTOR_SIZE])
    (by rw [hb1size]; norm_num [ADDR_SPACE])
  rw [hw2, except_ok_bind]
  have e1 : (vi400 now).dirStartBlock * SECTOR_SIZE = 2048 := by
    norm_num [vi400, SECTOR_SIZE]
  have e2 : (vi400 now).dirStartBlock * SECTOR_SIZE +
      (vi400 now).dirLengthBlocks * SECTOR_SIZE = 8192 := by
    norm_num [vi400, SECTOR_SIZE]
  rw [e2, e1] at hso2
  have hb2size : b2.size = 409600 := by rw [hso2.1, hb1size]
  have hzero' : ∀ t, t < 3072 → b2.get (2048 + 2 * t) = 0 := by
    intro t ht
    have e3 : ((vi400 now).dirLengthBlocks * SECTOR_SIZE + 1) / 2 = 3072 := by
      norm_num [vi400, SECTOR_SIZE]
    have h := hzero t (by rw [e3]; omega)
    rwa [e1] at h
  have m : ∀ x, x < 2048 → b2.get x = b1.get x := by
    intro x hx
    exact hso2.2 x (by simp only [ADDR_SPACE]; omega) (by omega)
  have ksig2 : b2.get 1024 * 256 + b2.get 1025 = 53975 := by
    rw [m 1024 (by omega), m 1025 (by omega)]; exact ksig
  have knf2 : b2.get 1036 * 256 + b2.get 1037 = 0 := by
    rw [m 1036 (by omega), m 1037 (by omega)]; exact knf
  have kdirst2 : b2.get 1038 * 256 + b2.get 1039 = 4 := by
    rw [m 1038 (by omega), m 1039 (by omega)]; exact kdirst
  have kdirlen2 : b2.get 1040 * 256 + b2.get 1041 = 12 := by
    rw [m 1040 (by omega), m 1041 (by omega)]; exact kdirlen
  have knab2 : b2.get 1042 * 256 + b2.get 1043 = 392 := by
    rw [m 1042 (by omega), m 1043 (by omega)]; exact knab
  have kabsz2 : ((b2.get 1044 * 256 + b2.get 1045) * 256 + b2.get 1046) * 256 +
      b2.get 1047 = 1024 := by
    rw [m 1044 (by omega), m 1045 (by omega), m 1046 (by omega), m 1047 (by omega)]
    exact kabsz
  have kast2 : b2.get 1052 * 256 + b2.get 1053 = 16 := by
    rw [m 1052 (by omega), m 1053 (by omega)]; exact kast
  have kfree2 : b2.get 1058 * 256 + b2.get 1059 = 392 := by
    rw [m 1058 (by omega), m 1059 (by omega)]; exact kfree
  have k1060b : b2.get 1060 = 6 := by
    rw [m 1060 (by omega)]; exact k1060
  have hparse := parseMDB_spec b2 (by rw [knab2, hb2size]; omega)
  rw [knab2, ksig2, knf2, kdirst2, kdirlen2, kabsz2, kast2, kfree2, k1060b]
    at hparse
  rw [show min (6 : Nat) 27 = 6 from rfl] at hparse
  have hnm : (List.range 6).map (fun i => b2.get (1060 + 1 + i)) =
      [77, 121, 68, 105, 115, 107] := by
    rw [show List.range 6 = [0, 1, 2, 3, 4, 5] from rfl]
    simp only [List.map_cons, List.map_nil, List.cons.injEq, and_true]
    refine ⟨?_, ?_, ?_, ?_, ?_, ?_⟩
    · exact (m 1061 (by omega)).trans (kn 0 (by omega))
    · exact (m 1062 (by omega)).trans (kn 1 (by omega))
    · exact (m 1063 (by omega)).trans (kn 2 (by omega))
    · exact (m 1064 (by omega)).trans (kn 3 (by omega))
    · exact (m 1065 (by omega)).trans (kn 4 (by omega))
    · exact (m 1066 (by omega)).trans (kn 5 (by omega))
  rw [hnm] at hparse
  have habmrep : (List.range 392).map
      (fun i => getABMEntryFromTriplet (b2.get (1088 + 3 * (i / 2)))
        (b2.get (1088 + 3 * (i / 2) + 1)) (b2.get (1088 + 3 * (i / 2) + 2))
        (i % 2 = 0)) = List.replicate 392 0 := by
    have hel : ∀ i ∈ List.range 392,
        getABMEntryFromTriplet (b2.get (1088 + 3 * (i / 2)))
          (b2.get (1088 + 3 * (i / 2) + 1)) (b2.get (1088 + 3 * (i / 2) + 2))
          (decide (i % 2 = 0)) = 0 := by
      intro i hi
      rw [List.mem_range] at hi
      rw [m (1088 + 3 * (i / 2)) (by omega), m (1088 + 3 * (i / 2) + 1) (by omega),
        m (1088 + 3 * (i / 2) + 2) (by omega)]
      by_cases hp : i % 2 = 0
      · rw [show (decide (i % 2 = 0)) = true from by simp [hp]]
        exact (habm (i / 2) (by omega)).1
      · rw [show (decide (i % 2 = 0)) = false from by simp [hp]]
        exact (habm (i / 2) (by omega)).2 (by omega)
    rw [List.map_congr_left hel]
    have : (List.range 392).map (fun _ => (0 : Nat)) = List.replicate 392 0 := by
      simp [List.map_const']
    exact this
  rw [habmrep] at hparse
  rw [hparse, except_ok_bind]
  dsimp only
  have h2048 : b2.get 2048 = 0 := by
    have h := hzero' 0 (by omega)
    norm_num at h
    exact h
  rw [parseFileDirectory]
  rw [parseDirGo_first_clear b2]
  · rw [except_ok_bind]
    exact ⟨_, rfl, rfl, rfl, rfl, rfl, rfl, rfl, rfl, rfl, rfl, rfl, rfl, hb2size⟩
  · norm_num [SECTOR_SIZE]
  · rw [hb2size]
    norm_num [SECTOR_SIZE]
  · norm_num [SECTOR_SIZE, h2048]

/-- C8: formatting a new 400 KB volume named "MyDisk" yields a volume with
an empty file list, signature `0xD2D7`, 392 total and 392 free allocation
blocks, a directory at sectors 4–15 (12 sectors), the allocation region at
sector 16, 1024-byte allocation blocks, and the volume name "MyDisk"
(`[77, 121, 68, 105, 115, 107]` as code units). -/
theorem format_400_MyDisk (now : Nat) :
    ∃ v, formatNewImage 400 [77, 121, 68, 105, 115, 107] now = .ok v ∧
      listFiles v = [] ∧
      v.volumeInfo.signature = 0xD2D7 ∧
      v.volumeInfo.numAllocBlocks = (392 : Int) ∧
      v.volumeInfo.freeAllocBlocks = (392 : Int) ∧
      v.volumeInfo.dirStartBlock = 4 ∧
      v.volumeInfo.dirLengthBlocks = 12 ∧
      v.volumeInfo.allocBlockStartSector = 16 ∧
      v.volumeInfo.allocBlockSize = 1024 ∧
      v.volumeInfo.volumeName = [77, 121, 68, 105, 115, 107] := by
  obtain ⟨v, hok, hsig, hnab, hfree, hdst, hdl, hast, habs, hname, _, _, hdir, _⟩ :=
    formatNewImage_400_spec now
  exact ⟨v, hok, by rw [listFiles, hdir]; rfl, hsig, hnab, hfree, hdst, hdl,
    hast, habs, hname⟩

/-- The volume-info of the directory-scan example: directory at sectors
4–15, as formatted images have. -/
def c4vi : VolumeInfo :=
  { signature := 0xD2D7, creationDate := none, modificationDate := none
    attributes := 0, numFiles := 1, dirStartBlock := 4, dirLengthBlocks := 12
    numAllocBlocks := 392, allocBlockSize := 1024, clumpSize := 8192
    allocBlockStartSector := 16, nextFileNum := 2, freeAllocBlocks := 392
    volumeName := [] }

/-- C4 (amended): an entry whose flag byte has bit 7 clear terminates the
whole directory scan with the entries collected so far; the scanner does not
advance to the next sector. -/
theorem parseDir_stops_at_clear_flag (b : Buffer) (vi : VolumeInfo) (fuel : Nat)
    (currentOffset : Nat) (acc : List FileEntry)
    (hin : currentOffset < vi.dirLengthBlocks * SECTOR_SIZE)
    (hsize : vi.dirStartBlock * SECTOR_SIZE + currentOffset < b.size)
    (hflag : b.get (vi.dirStartBlock * SECTOR_SIZE + currentOffset) &&& 0x80 = 0) :
    parseDirGo b vi (fuel + 1) currentOffset acc = .ok acc := by
  rw [parseDirGo]
  rw [if_pos hin]
  have hoff : ((vi.dirStartBlock * SECTOR_SIZE : Nat) : Int) +
      ((currentOffset : Nat) : Int) =
      ((vi.dirStartBlock * SECTOR_SIZE + currentOffset : Nat) : Int) := by
    push_cast; ring
  rw [hoff]
  rw [if_neg (by
    have h2 : ¬ (b.size ≤ vi.dirStartBlock * SECTOR_SIZE + currentOffset) := by omega
    intro hcon
    exact h2 (by exact_mod_cast hcon))]
  rw [readUint8_spec b (vi.dirStartBlock * SECTOR_SIZE + currentOffset) (by omega),
    except_ok_bind]
  rw [if_pos hflag]

/-- C4 counterexample: the first directory sector starts with an unused
entry (flag byte `0x00` at offset 2048) while the next sector holds an
in-use entry (flag byte `0x80` at offset 2560); the parser nevertheless
returns the empty file list, never reaching the second sector. -/
theorem parseDir_skips_later_sectors :
    (((Buffer.mk 8192 Mem.empty).setByte 2560 128).get (2048 + 512)) &&& 0x80 ≠ 0 ∧
    parseFileDirectory ((Buffer.mk 8192 Mem.empty).setByte 2560 128) c4vi =
      .ok [] := by
  constructor
  · decide
  · decide

/-- Witness for the amended C4 theorem at a mid-scan offset of the
counterexample image. -/
theorem parseDir_stops_at_clear_flag_witness :
    (514 < c4vi.dirLengthBlocks * SECTOR_SIZE ∧
      c4vi.dirStartBlock * SECTOR_SIZE + 514 <
        ((Buffer.mk 8192 Mem.empty).setByte 2560 128).size ∧
      ((Buffer.mk 8192 Mem.empty).setByte 2560 128).get
        (c4vi.dirStartBlock * SECTOR_SIZE + 514) &&& 0x80 = 0) ∧
    parseDirGo ((Buffer.mk 8192 Mem.empty).setByte 2560 128) c4vi (99 + 1) 514 [] =
      .ok [] :=
  ⟨⟨by decide, by decide, by decide⟩,
   parseDir_stops_at_clear_flag ((Buffer.mk 8192 Mem.empty).setByte 2560 128)
     c4vi 99 514 [] (by decide) (by decide) (by decide)⟩

end MFSLib
